import Mathlib

/-!
Verification development for the secure-kyc-chain backend (identiQ).

The Python sources under `backend/app` are shallowly embedded below:
pure functions become Lean functions, the per-request endpoint logic
becomes pure functions over an explicit application state, and the
multi-request behaviour becomes a step relation over a list of cases.
Python floats are modelled as rationals (`ℚ`) except for the cosine
similarity of face embeddings, where the square root forces reals (`ℝ`).
Python strings are modelled as `String`/`List Char` with ASCII case
mapping; Python timestamps are modelled as a natural number of days,
with one clock value per request.
-/

set_option maxRecDepth 10000

namespace IdentiQ

/-! ### Basic Python string helpers -/

/-- Python whitespace (the ASCII characters matched by a regex \s). -/
def isPySpace (c : Char) : Bool :=
  c = ' ' || c = '\t' || c = '\n' || c = '\r' || c = '\x0b' || c = '\x0c'

/-- Python `str.strip()` on a list of characters. -/
def pyStrip (s : List Char) : List Char :=
  ((s.dropWhile isPySpace).reverse.dropWhile isPySpace).reverse

/-- Collapse runs of whitespace to a single space, tracking whether the
previous character was whitespace (the effect of `re.sub(r'\s+', ' ', s)`). -/
def collapseWsAux : List Char → Bool → List Char
  | [], _ => []
  | c :: cs, prevSpace =>
    if isPySpace c then
      if prevSpace then collapseWsAux cs true
      else ' ' :: collapseWsAux cs true
    else c :: collapseWsAux cs false

/-- Embeds `re.sub(r'\s+', ' ', s.strip().upper())` from the validation service. -/
def normalizeUpper (s : List Char) : List Char :=
  collapseWsAux ((pyStrip s).map Char.toUpper) false

/-- Python substring containment (`needle in hay`). -/
def isSubstringOf : List Char → List Char → Bool
  | n, [] => n.isEmpty
  | n, c :: rest => n.isPrefixOf (c :: rest) || isSubstringOf n rest

/-- Numeric value of a list of decimal digit characters. -/
def digitsVal (cs : List Char) : Nat :=
  cs.foldl (fun acc c => acc * 10 + (c.toNat - '0'.toNat)) 0

/-! ### difflib.SequenceMatcher

Embedding of CPython `difflib.SequenceMatcher(None, a, b).ratio()`:
`b2j` with the autojunk purge of popular elements, the dynamic-programming
`find_longest_match` with its non-junk extension loops (the junk extension
loops never fire because `isjunk` is `None`), the recursive decomposition
of `get_matching_blocks`, and `2*M/T`. -/

/-- Indices of `c` in `b`, with the autojunk purge: for `len(b) >= 200`,
characters occurring more than `len(b)/100 + 1` times are removed. -/
def b2j (b : List Char) (c : Char) : List Nat :=
  let idxs := (List.range b.length).filter (fun j => b.getD j ' ' = c)
  if 200 ≤ b.length ∧ b.length / 100 + 1 < idxs.length then [] else idxs

/-- Inner loop of `find_longest_match` over the candidate `j` positions for
one `i`; `j < blo` is skipped and `j >= bhi` breaks.  Returns the new
`j2len` association list and the updated best `(besti, bestj, bestsize)`. -/
def flmInner (blo bhi i : Nat) :
    List Nat → List (Nat × Nat) → List (Nat × Nat) → (Nat × Nat × Nat) →
    List (Nat × Nat) × (Nat × Nat × Nat)
  | [], _, newj2len, best => (newj2len, best)
  | j :: js, j2len, newj2len, best =>
    if j < blo then flmInner blo bhi i js j2len newj2len best
    else if bhi ≤ j then (newj2len, best)
    else
      let prev := if j = 0 then 0 else (j2len.lookup (j - 1)).getD 0
      let k := prev + 1
      let best' := if best.2.2 < k then (i + 1 - k, j + 1 - k, k) else best
      flmInner blo bhi i js j2len ((j, k) :: newj2len) best'

/-- Outer loop of `find_longest_match` over `i` in `[alo, ahi)`. -/
def flmOuter (a b : List Char) (blo bhi : Nat) :
    List Nat → List (Nat × Nat) → (Nat × Nat × Nat) → Nat × Nat × Nat
  | [], _, best => best
  | i :: is, j2len, best =>
    let r := flmInner blo bhi i (b2j b (a.getD i ' ')) j2len [] best
    flmOuter a b blo bhi is r.1 r.2

/-- Leftward extension of the best block over equal characters (the first
non-junk `while` loop; the junk set is empty since `isjunk` is `None`).
The fuel equals `besti` at the call site, which bounds the iterations. -/
def flmExtLeft (a b : List Char) (alo blo : Nat) : Nat → Nat → Nat → Nat
  | 0, _, _ => 0
  | fuel + 1, besti, bestj =>
    if alo < besti ∧ blo < bestj ∧
        a.getD (besti - 1) ' ' = b.getD (bestj - 1) ' ' then
      1 + flmExtLeft a b alo blo fuel (besti - 1) (bestj - 1)
    else 0

/-- Rightward extension of the best block over equal characters; the fuel
equals `ahi` at the call site, which bounds the iterations. -/
def flmExtRight (a b : List Char) (ahi bhi : Nat) : Nat → Nat → Nat → Nat
  | 0, _, _ => 0
  | fuel + 1, i, j =>
    if i < ahi ∧ j < bhi ∧ a.getD i ' ' = b.getD j ' ' then
      1 + flmExtRight a b ahi bhi fuel (i + 1) (j + 1)
    else 0

/-- Embeds `SequenceMatcher.find_longest_match(alo, ahi, blo, bhi)`. -/
def findLongestMatch (a b : List Char) (alo ahi blo bhi : Nat) :
    Nat × Nat × Nat :=
  let best := flmOuter a b blo bhi (List.range' alo (ahi - alo)) [] (alo, blo, 0)
  let l := flmExtLeft a b alo blo best.1 best.1 best.2.1
  let besti := best.1 - l
  let bestj := best.2.1 - l
  let bestsize := best.2.2 + l
  let r := flmExtRight a b ahi bhi ahi (besti + bestsize) (bestj + bestsize)
  (besti, bestj, bestsize + r)

/-- Total size of all matching blocks in the window (the sum of the `k`
components of `get_matching_blocks`), computed by the same recursive
decomposition around the longest match.  The fuel strictly exceeds the
recursion depth, which is bounded by the total window size. -/
def matchingTotal (a b : List Char) : Nat → Nat → Nat → Nat → Nat → Nat
  | 0, _, _, _, _ => 0
  | fuel + 1, alo, ahi, blo, bhi =>
    let m := findLongestMatch a b alo ahi blo bhi
    if m.2.2 = 0 then 0
    else
      m.2.2 + matchingTotal a b fuel alo m.1 blo m.2.1 +
        matchingTotal a b fuel (m.1 + m.2.2) ahi (m.2.1 + m.2.2) bhi

/-- Number of matching elements between `a` and `b` per `SequenceMatcher`. -/
def seqMatches (a b : List Char) : Nat :=
  matchingTotal a b (a.length + b.length + 1) 0 a.length 0 b.length

/-- Embeds `SequenceMatcher(None, a, b).ratio()` as a rational: `2*M/T`,
and `1.0` when both sequences are empty. -/
def seqSimilarity (a b : List Char) : ℚ :=
  if a.length + b.length = 0 then 1
  else (2 * seqMatches a b : ℚ) / (a.length + b.length : ℚ)

/-! ### Dates: `datetime.strptime` for the validation service formats

The accepted formats use the directives `%Y %m %d %B %b` plus literal
separators; `_strptime` turns whitespace in the format into `\s+`, matches
the compiled pattern at the start of the string, case-insensitively, and
requires full consumption, then `datetime(...)` validates the calendar
date.  The directive sub-patterns and their alternative order are those of
CPython `_strptime.TimeRE`; backtracking over the alternatives is
reproduced by trying candidates in order. -/

structure PyDate where
  year : Nat
  month : Nat
  day : Nat
deriving DecidableEq, Repr

def isLeapYear (y : Nat) : Bool :=
  y % 4 = 0 && (y % 100 ≠ 0 || y % 400 = 0)

def daysInMonth (y m : Nat) : Nat :=
  if m = 2 then (if isLeapYear y then 29 else 28)
  else if m = 4 ∨ m = 6 ∨ m = 9 ∨ m = 11 then 30
  else 31

/-- The `datetime(year, month, day)` constructor check (MINYEAR..MAXYEAR). -/
def validDate (y m d : Nat) : Bool :=
  1 ≤ y && y ≤ 9999 && 1 ≤ m && m ≤ 12 && 1 ≤ d && d ≤ daysInMonth y m

/-- Format tokens: the directives used by the validation service formats. -/
inductive FmtTok where
  | lit (c : Char)
  | ws
  | year4
  | month2
  | day2
  | monthFull
  | monthAbbr
deriving DecidableEq, Repr

/-- A field assignment produced by one matched directive. -/
inductive FieldUpd where
  | skip
  | year (n : Nat)
  | month (n : Nat)
  | day (n : Nat)
deriving DecidableEq, Repr

def applyUpd (u : FieldUpd) (d : PyDate) : PyDate :=
  match u with
  | .skip => d
  | .year n => { d with year := n }
  | .month n => { d with month := n }
  | .day n => { d with day := n }

def monthFullNames : List (String × Nat) :=
  [("JANUARY", 1), ("FEBRUARY", 2), ("MARCH", 3), ("APRIL", 4), ("MAY", 5),
   ("JUNE", 6), ("JULY", 7), ("AUGUST", 8), ("SEPTEMBER", 9), ("OCTOBER", 10),
   ("NOVEMBER", 11), ("DECEMBER", 12)]

def monthAbbrNames : List (String × Nat) :=
  [("JAN", 1), ("FEB", 2), ("MAR", 3), ("APR", 4), ("MAY", 5), ("JUN", 6),
   ("JUL", 7), ("AUG", 8), ("SEP", 9), ("OCT", 10), ("NOV", 11), ("DEC", 12)]

/-- Case-insensitive month-name match.  No month name is a prefix of
another, so the length-descending alternative order of `_strptime` is
immaterial and calendar order is used. -/
def matchMonthName (names : List (String × Nat)) (s : List Char) :
    Option (Nat × List Char) :=
  names.findSome? fun p =>
    if (s.take p.1.length).map Char.toUpper = p.1.data then
      some (p.2, s.drop p.1.length)
    else none

def isDigitCh (c : Char) : Bool := '0' ≤ c && c ≤ '9'

def chVal (c : Char) : Nat := c.toNat - '0'.toNat

/-- Candidate parses for one directive, in regex alternative order
(each candidate is a field update plus the remaining input):
`%d` is `3[01]|[12]\d|0[1-9]|[1-9]`, `%m` is `1[0-2]|0[1-9]|[1-9]`,
`%Y` is `\d\d\d\d`, and format whitespace is greedy `\s+`. -/
def tokCandidates : FmtTok → List Char → List (FieldUpd × List Char)
  | .lit c, s =>
    match s with
    | c' :: rest => if c' = c then [(.skip, rest)] else []
    | [] => []
  | .ws, s =>
    let m := (s.takeWhile isPySpace).length
    if m = 0 then []
    else (List.range m).map (fun t => (.skip, s.drop (m - t)))
  | .year4, s =>
    match s with
    | a :: b :: c :: d :: rest =>
      if isDigitCh a ∧ isDigitCh b ∧ isDigitCh c ∧ isDigitCh d then
        [(.year (digitsVal [a, b, c, d]), rest)]
      else []
    | _ => []
  | .month2, s =>
    let two : List (FieldUpd × List Char) :=
      match s with
      | a :: b :: rest =>
        if (a = '1' ∧ ('0' ≤ b ∧ b ≤ '2')) ∨ (a = '0' ∧ ('1' ≤ b ∧ b ≤ '9')) then
          [(.month (digitsVal [a, b]), rest)]
        else []
      | _ => []
    let one : List (FieldUpd × List Char) :=
      match s with
      | a :: rest => if '1' ≤ a ∧ a ≤ '9' then [(.month (chVal a), rest)] else []
      | [] => []
    two ++ one
  | .day2, s =>
    let two : List (FieldUpd × List Char) :=
      match s with
      | a :: b :: rest =>
        if (a = '3' ∧ (b = '0' ∨ b = '1')) ∨ ((a = '1' ∨ a = '2') ∧ isDigitCh b)
            ∨ (a = '0' ∧ ('1' ≤ b ∧ b ≤ '9')) then
          [(.day (digitsVal [a, b]), rest)]
        else []
      | _ => []
    let one : List (FieldUpd × List Char) :=
      match s with
      | a :: rest => if '1' ≤ a ∧ a ≤ '9' then [(.day (chVal a), rest)] else []
      | [] => []
    two ++ one
  | .monthFull, s =>
    match matchMonthName monthFullNames s with
    | some (m, rest) => [(.month m, rest)]
    | none => []
  | .monthAbbr, s =>
    match matchMonthName monthAbbrNames s with
    | some (m, rest) => [(.month m, rest)]
    | none => []

/-- Backtracking matcher for a token list against the whole input
(depth-first over candidates, which is the regex engine order). -/
def runFmt : List FmtTok → List Char → PyDate → Option PyDate
  | [], [], acc => some acc
  | [], _ :: _, _ => none
  | t :: ts, s, acc =>
    (tokCandidates t s).findSome? fun c => runFmt ts c.2 (applyUpd c.1 acc)

/-- Embeds `datetime.strptime(s, fmt).date()` for one format: full-string match,
then calendar validation (unused fields default to 1900-01-01). -/
def strptimeDate (fmt : List FmtTok) (s : List Char) : Option PyDate :=
  match runFmt fmt s ⟨1900, 1, 1⟩ with
  | none => none
  | some d => if validDate d.year d.month d.day then some d else none

def fmtYmd : List FmtTok := [.year4, .lit '-', .month2, .lit '-', .day2]
def fmtDmySlash : List FmtTok := [.day2, .lit '/', .month2, .lit '/', .year4]
def fmtDmyDash : List FmtTok := [.day2, .lit '-', .month2, .lit '-', .year4]
def fmtMdySlash : List FmtTok := [.month2, .lit '/', .day2, .lit '/', .year4]
def fmtDFullY : List FmtTok := [.day2, .ws, .monthFull, .ws, .year4]
def fmtDAbbrY : List FmtTok := [.day2, .ws, .monthAbbr, .ws, .year4]
def fmtFullDY : List FmtTok := [.monthFull, .ws, .day2, .lit ',', .ws, .year4]
def fmtAbbrDY : List FmtTok := [.monthAbbr, .ws, .day2, .lit ',', .ws, .year4]

/-- The ordered `date_formats` list of `ValidationService._parse_date`. -/
def dateFormats : List (List FmtTok) :=
  [fmtYmd, fmtDmySlash, fmtDmyDash, fmtMdySlash,
   fmtDFullY, fmtDAbbrY, fmtFullDY, fmtAbbrDY]

/-! The fallback regex search for a digit triple: one or two digits, a
slash-or-dash separator, one or two digits, a separator, two to four
digits, with capture groups around the digit runs. -/

/-- Greedy digit-group candidates `\d{lo,hi}` at the head of `s`,
longest first, paired with the remaining input. -/
def digitCandsCh (lo hi : Nat) (s : List Char) : List (List Char × List Char) :=
  let run := (s.takeWhile isDigitCh).length
  let maxk := min hi run
  if maxk < lo then []
  else (List.range (maxk + 1 - lo)).map (fun t => (s.take (maxk - t), s.drop (maxk - t)))

def sepCand : List Char → Option (List Char)
  | c :: rest => if c = '/' ∨ c = '-' then some rest else none
  | [] => none

/-- Try the day/month/year triple pattern anchored at the current position. -/
def matchTripleAt (s : List Char) : Option (Nat × Nat × Nat) :=
  (digitCandsCh 1 2 s).findSome? fun p1 =>
    match sepCand p1.2 with
    | none => none
    | some r2 =>
      (digitCandsCh 1 2 r2).findSome? fun p2 =>
        match sepCand p2.2 with
        | none => none
        | some r4 =>
          (digitCandsCh 2 4 r4).findSome? fun p3 =>
            some (digitsVal p1.1, digitsVal p2.1, digitsVal p3.1)

/-- Embeds `re.search`: leftmost position whose anchored match succeeds. -/
def searchTriple : List Char → Option (Nat × Nat × Nat)
  | [] => none
  | c :: rest =>
    match matchTripleAt (c :: rest) with
    | some r => some r
    | none => searchTriple rest

/-- The two-digit-year pivot of `_parse_date`:
`if year < 100: year += 2000 if year < 50 else 1900`. -/
def pivotYear (y : Nat) : Nat :=
  if y < 100 then (if y < 50 then y + 2000 else y + 1900) else y

/-- The regex fallback branch of `_parse_date` (after the format loop):
scan for a day, month, year triple separated by slash or dash, pivot
two-digit years, validate via `datetime`. -/
def fallbackDateScan (cs : List Char) : Option PyDate :=
  match searchTriple cs with
  | some (d, m, y0) =>
    let y := pivotYear y0
    if validDate y m d then some ⟨y, m, d⟩ else none
  | none => none

/-- Embeds `ValidationService._parse_date`. -/
def parse_date (s : String) : Option PyDate :=
  if s = "" then none
  else
    match dateFormats.findSome? (fun fmt => strptimeDate fmt (pyStrip s.data)) with
    | some d => some d
    | none => fallbackDateScan (pyStrip s.data)

/-! ### ValidationService -/

/-- Rejection reasons, carrying the data interpolated into the Python
reason strings (both names and the measured similarity for a name
mismatch, the offending strings for the date checks, and so on). -/
inductive Reason where
  | nameMissing
  | nameMismatch (userName extractedName : String) (similarity : ℚ)
  | dobMissing
  | dobUserFormatInvalid (userDob : String)
  | dobUnparseable (extractedDob : String)
  | dobMismatch (userDob extractedDob : String)
  | genderMismatch (userGender extractedGender : String)
  | addressMismatch (similarity : ℚ)
deriving DecidableEq, Repr

/-- The similarity computed by `_validate_name`: `SequenceMatcher` ratio
of the whitespace-collapsed, uppercased names. -/
def nameSimilarity (userName extractedName : String) : ℚ :=
  seqSimilarity (normalizeUpper userName.data) (normalizeUpper extractedName.data)

/-- Embeds `ValidationService._validate_name` (threshold 0.75). -/
def validate_name (userName extractedName : String) : Bool × Option Reason :=
  if userName = "" ∨ extractedName = "" then (false, some .nameMissing)
  else if 3 / 4 ≤ nameSimilarity userName extractedName then (true, none)
  else (false, some (.nameMismatch userName extractedName
    (nameSimilarity userName extractedName)))

/-- Strict parse of the user-entered date of birth,
`datetime.strptime(user_dob, "%Y-%m-%d")`. -/
def strptimeUserDob (s : String) : Option PyDate :=
  strptimeDate fmtYmd s.data

/-- Embeds `ValidationService._validate_date_of_birth`. -/
def validate_date_of_birth (userDob extractedDob : String) :
    Bool × Option Reason :=
  if userDob = "" ∨ extractedDob = "" then (false, some .dobMissing)
  else
    match strptimeUserDob userDob with
    | none => (false, some (.dobUserFormatInvalid userDob))
    | some ud =>
      match parse_date extractedDob with
      | none => (false, some (.dobUnparseable extractedDob))
      | some ed =>
        if ud = ed then (true, none)
        else (false, some (.dobMismatch userDob extractedDob))

/-- The `gender_map` lookup of `_validate_gender`:
`gender_map.get(user_gender_norm, [user_gender_norm])`. -/
def genderSynonyms (un : List Char) : List (List Char) :=
  if un = "MALE".data then ["M".data, "MALE".data, "MALE".data, "M".data]
  else if un = "FEMALE".data then ["F".data, "FEMALE".data, "FEMALE".data, "F".data]
  else if un = "OTHER".data then ["O".data, "OTHER".data, "OTHER".data, "O".data]
  else [un]

/-- The match test of `_validate_gender`: equality with a synonym, or a
synonym occurring as a substring of the extracted value. -/
def genderMatches (un en : List Char) : Bool :=
  (genderSynonyms un).contains en
    || (genderSynonyms un).any (fun g => isSubstringOf g en)

/-- Embeds `ValidationService._validate_gender` (synonym map plus substring test). -/
def validate_gender (userGender extractedGender : String) :
    Bool × Option Reason :=
  if userGender = "" ∨ extractedGender = "" then (true, none)
  else if genderMatches (pyStrip (userGender.data.map Char.toUpper))
      (pyStrip (extractedGender.data.map Char.toUpper)) then (true, none)
  else (false, some (.genderMismatch userGender extractedGender))

def addressSimilarity (userAddress extractedAddress : String) : ℚ :=
  seqSimilarity (normalizeUpper userAddress.data)
    (normalizeUpper extractedAddress.data)

/-- Embeds `ValidationService._validate_address` (threshold 0.60). -/
def validate_address (userAddress extractedAddress : String) :
    Bool × Option Reason :=
  if userAddress = "" ∨ extractedAddress = "" then (true, none)
  else if 3 / 5 ≤ addressSimilarity userAddress extractedAddress then (true, none)
  else (false, some (.addressMismatch (addressSimilarity userAddress extractedAddress)))

/-- User-entered details; a missing key yields `""` (`dict.get(k, "")`). -/
structure UserDetails where
  name : String
  date_of_birth : String
  gender : String
  address : String
deriving DecidableEq, Repr

/-- OCR-extracted fields; a missing key yields `""`. -/
structure ExtractedData where
  name : String
  dob : String
  gender : String
  address : String
deriving DecidableEq, Repr

/-- The reasons appended by one sub-check: its reason when it failed. -/
def reasonList (check : Bool × Option Reason) : List Reason :=
  if check.1 then [] else check.2.toList

/-- Embeds `ValidationService.validate_user_details`: name and date of birth
always checked, gender only when extracted, address only when both
present; `is_valid` iff no reason was appended.  (The AADHAAR-specific
branch in the source is a no-op.) -/
def validate_user_details (ud : UserDetails) (ed : ExtractedData)
    (docType : String) : Bool × List Reason :=
  let rs :=
    reasonList (validate_name ud.name ed.name)
    ++ reasonList (validate_date_of_birth ud.date_of_birth ed.dob)
    ++ (if ed.gender ≠ "" then reasonList (validate_gender ud.gender ed.gender) else [])
    ++ (if ud.address ≠ "" ∧ ed.address ≠ "" then
          reasonList (validate_address ud.address ed.address)
        else [])
  (rs.isEmpty, rs)

/-! ### LivenessService.detect_liveness_from_video

The per-frame computer-vision call `detect_eye_blink` is the external
capability; a video is modelled by the list of its per-frame closed-eye
verdicts (`blink_detected`), in frame order.  The loop counts a blink on
each transition into the closed state, analyzes at most 30 frames, and
derives liveness and confidence from the blink count. -/

structure VideoLiveness where
  is_live : Bool
  blink_count : Nat
  confidence : ℚ
  frames_analyzed : Nat
deriving DecidableEq, Repr

/-- The frame loop: `was_blinking` starts false; a closed frame after an
open one increments `blink_count`. -/
def countBlinksAux : List Bool → Bool → Nat
  | [], _ => 0
  | closed :: rest, wasBlinking =>
    if closed then (if wasBlinking then 0 else 1) + countBlinksAux rest true
    else countBlinksAux rest false

/-- Embeds `LivenessService.detect_liveness_from_video` over the closed-state
sequence of the video frames. -/
def detect_liveness_from_video (closedStates : List Bool) : VideoLiveness :=
  let frames := closedStates.take 30
  let bc := countBlinksAux frames false
  { is_live := decide (1 ≤ bc)
    blink_count := bc
    confidence := min 1 ((bc : ℚ) / 2)
    frames_analyzed := frames.length }

theorem dropWhile_length_le {α : Type} (p : α → Bool) (l : List α) :
    (l.dropWhile p).length ≤ l.length := by
  induction l with
  | nil => simp
  | cons a l ih =>
    by_cases h : p a
    · simp only [List.dropWhile_cons, h, if_true]
      exact Nat.le_succ_of_le ih
    · simp [List.dropWhile_cons, h]

/-- Specification-side count: one blink per maximal run of consecutive
closed frames. -/
def closedRunCount : List Bool → Nat
  | [] => 0
  | closed :: rest =>
    if closed then 1 + closedRunCount (rest.dropWhile (· = true))
    else closedRunCount rest
termination_by l => l.length
decreasing_by
  · exact Nat.lt_succ_of_le (dropWhile_length_le _ _)
  · exact Nat.lt_succ_self _

/-! ### TransactionAnalysisService

The OCR text is the input; the line regexes are embedded directly.
Matched amounts are parsed into rationals (`float` on the matched shapes
never raises, so the `try` in the source is immaterial). -/

/-- One parsed transaction; utility-bill entries have no date and an
empty raw line (`txn.get('raw_line', '')`). -/
structure Txn where
  date : Option String
  amount : ℚ
  raw_line : String
deriving DecidableEq, Repr

/-- Suspicion indicators, carrying the counts interpolated into the
Python indicator strings. -/
inductive TxnIndicator where
  | noTransactionsFound
  | rapidTransactions (count : Nat)
  | largeAmounts (count : Nat)
  | roundNumbers (count : Nat)
  | frequentCashWithdrawals (count : Nat)
  | negativeBalance
  | duplicateTransactions (pairs : Nat)
deriving DecidableEq, Repr

structure TxnAnalysis where
  is_suspicious : Bool
  risk_score : Nat
  suspicious_indicators : List TxnIndicator
  transaction_count : Nat
deriving DecidableEq, Repr

/-- Python `max` over a nonempty rational list (0 is never used). -/
def pyMaxQ : List ℚ → ℚ
  | [] => 0
  | x :: xs => xs.foldl max x

/-- Embeds `text.split('\n')`. -/
def splitOnNl : List Char → List (List Char)
  | [] => [[]]
  | c :: rest =>
    if c = '\n' then [] :: splitOnNl rest
    else
      match splitOnNl rest with
      | [] => [[c]]
      | l :: ls => (c :: l) :: ls

/-- Parse a matched amount string (sign, digits, optional two-digit
fraction; commas already removed) into a rational, as `float` would. -/
def parseAmountQ (cs : List Char) : ℚ :=
  let p := match cs with
    | '+' :: r => ((1 : ℚ), r)
    | '-' :: r => ((-1 : ℚ), r)
    | r => ((1 : ℚ), r)
  let intPart := p.2.takeWhile isDigitCh
  let fracDigits := match p.2.drop intPart.length with
    | '.' :: ds => ds
    | _ => []
  p.1 * ((digitsVal intPart : ℚ) +
    (digitsVal fracDigits : ℚ) / ((10 : ℚ) ^ fracDigits.length))

/-- Anchored match of the date pattern (one or two digits, slash or dash,
one or two digits, slash or dash, two to four digits), returning the
matched text and the rest; digit groups are greedy with backtracking. -/
def matchDatePat (s : List Char) : Option (List Char × List Char) :=
  (digitCandsCh 1 2 s).findSome? fun p1 =>
    match p1.2 with
    | c1 :: r2 =>
      if c1 = '/' ∨ c1 = '-' then
        (digitCandsCh 1 2 r2).findSome? fun p2 =>
          match p2.2 with
          | c2 :: r4 =>
            if c2 = '/' ∨ c2 = '-' then
              (digitCandsCh 2 4 r4).findSome? fun p3 =>
                some (p1.1 ++ c1 :: p2.1 ++ c2 :: p3.1, p3.2)
            else none
          | [] => none
      else none
    | [] => none

/-- The comma-group repetition of the amount pattern: zero or more
occurrences of a comma followed by exactly three digits, greedy. -/
def matchCommaGroups : List Char → List Char × List Char
  | ',' :: a :: b :: c :: rest =>
    if isDigitCh a ∧ isDigitCh b ∧ isDigitCh c then
      let p := matchCommaGroups rest
      (',' :: a :: b :: c :: p.1, p.2)
    else ([], ',' :: a :: b :: c :: rest)
  | s => ([], s)

/-- Anchored match of the unsigned amount pattern: one to three digits,
comma groups, optional dot plus two digits.  Everything after the first
digit group is optional, so the greedy parse needs no backtracking. -/
def matchAmountCore (s : List Char) : Option (List Char × List Char) :=
  let digs := s.takeWhile isDigitCh
  if digs = [] then none
  else
    let d := digs.take 3
    let r2 := s.drop (min 3 digs.length)
    let p := matchCommaGroups r2
    let q := match p.2 with
      | '.' :: a :: b :: rest =>
        if isDigitCh a ∧ isDigitCh b then (['.', a, b], rest) else ([], p.2)
      | _ => ([], p.2)
    some (d ++ p.1 ++ q.1, q.2)

/-- Anchored match of the amount pattern with its optional sign.  A sign
not followed by a digit fails the whole position (the empty-sign
alternative then requires a digit at the sign character). -/
def matchAmountPat (s : List Char) : Option (List Char × List Char) :=
  match s with
  | '+' :: r => (matchAmountCore r).map (fun p => ('+' :: p.1, p.2))
  | '-' :: r => (matchAmountCore r).map (fun p => ('-' :: p.1, p.2))
  | _ => matchAmountCore s

/-- Embeds `re.findall` for an anchored matcher: scan left to right, emit
non-overlapping matches, resume after each match.  Matches are nonempty,
so fuel `s.length + 1` suffices. -/
def findallAux (m : List Char → Option (List Char × List Char)) :
    Nat → List Char → List (List Char)
  | 0, _ => []
  | _, [] => []
  | fuel + 1, c :: rest =>
    match m (c :: rest) with
    | some p => p.1 :: findallAux m fuel p.2
    | none => findallAux m fuel rest

/-- Bank-statement line extraction: a line with a date match and an
amount match yields a transaction whose amount is the largest absolute
matched amount and whose date is the first date match. -/
def extractBankLine (line : List Char) : Option Txn :=
  let dates := findallAux matchDatePat (line.length + 1) line
  let amounts := findallAux matchAmountPat (line.length + 1) line
  if dates ≠ [] ∧ amounts ≠ [] then
    let amountVals := amounts.map (fun a => |parseAmountQ (a.filter (· ≠ ','))|)
    some { date := some (String.mk (dates.headD []))
           amount := pyMaxQ amountVals
           raw_line := String.mk line }
  else none

/-- Keyword alternation of the utility-bill pattern, case-insensitive. -/
def matchUtilityKeyword (s : List Char) : Option (List Char) :=
  ["AMOUNT", "TOTAL", "DUE", "PAYABLE"].findSome? fun kw =>
    if (s.take kw.length).map Char.toUpper = kw.data then some (s.drop kw.length)
    else none

/-- Anchored match of the utility-bill amount pattern: keyword, one or
more colon-or-whitespace characters, optional rupee sign, whitespace,
then the captured amount group.  Returns the captured group and the rest
after the whole match (shorter splits of the greedy pieces cannot rescue
a failed match, so the greedy parse is exact). -/
def matchUtilityAt (s : List Char) : Option (List Char × List Char) :=
  match matchUtilityKeyword s with
  | none => none
  | some r1 =>
    let sp := r1.takeWhile (fun c => c = ':' || isPySpace c)
    if sp = [] then none
    else
      let r2 := r1.drop sp.length
      let r3 := match r2 with
        | '₹' :: r => r
        | r => r
      let r4 := r3.dropWhile isPySpace
      matchAmountCore r4

/-- Word characters for the boundary assertions of the round-number
pattern. -/
def isWordChar (c : Char) : Bool := c.isAlphanum || c = '_'

/-- Anchored match of the round-number pattern (word boundary, four to
six digits, a literal dot, two zeros, word boundary), given the previous
character of the text. -/
def matchRoundAt (prev : Option Char) (s : List Char) :
    Option (List Char × List Char) :=
  if (match prev with | some p => isWordChar p | none => false) then none
  else
    let run := (s.takeWhile isDigitCh).length
    let maxk := min 6 run
    if maxk < 4 then none
    else
      ((List.range (maxk - 3)).map (fun t => maxk - t)).findSome? fun k =>
        match s.drop k with
        | '.' :: '0' :: '0' :: r2 =>
          match r2 with
          | [] => some (s.take k ++ ['.', '0', '0'], r2)
          | c :: _ =>
            if isWordChar c then none
            else some (s.take k ++ ['.', '0', '0'], r2)
        | _ => none

/-- Embeds `re.findall` for the round-number pattern, tracking the previous
character for the leading word boundary. -/
def findallRound : Nat → Option Char → List Char → List (List Char)
  | 0, _, _ => []
  | _, _, [] => []
  | fuel + 1, prev, c :: rest =>
    match matchRoundAt prev (c :: rest) with
    | some p => p.1 :: findallRound fuel (some '0') p.2
    | none => findallRound fuel (some c) rest

/-- Embeds `TransactionAnalysisService._extract_transactions`. -/
def extract_transactions (text : String) (documentType : String) : List Txn :=
  let dt := documentType.data.map Char.toUpper
  if isSubstringOf "BANK".data dt ∨ isSubstringOf "STATEMENT".data dt then
    (splitOnNl text.data).filterMap extractBankLine
  else if isSubstringOf "UTILITY".data dt ∨ isSubstringOf "BILL".data dt then
    (findallAux matchUtilityAt (text.data.length + 1) text.data).map fun a =>
      { date := none, amount := parseAmountQ (a.filter (· ≠ ',')), raw_line := "" }
  else []

/-- Embeds `_check_rapid_transactions`: the maximum number of transactions
sharing one date (dates keyed by their first whitespace-separated word
when they contain a space). -/
def check_rapid_transactions (txns : List Txn) : Nat :=
  if txns.length < 2 then 0
  else
    let dateKeys := (txns.filterMap (fun t => t.date)).map fun d =>
      if d.data.contains ' ' then
        String.mk ((d.data.dropWhile isPySpace).takeWhile (fun c => ¬ isPySpace c))
      else d
    match dateKeys with
    | [] => 0
    | k :: ks => (ks.map (fun k2 => dateKeys.count k2)).foldl max (dateKeys.count k)

/-- Embeds `_check_large_amounts` (strictly above 100000). -/
def check_large_amounts (txns : List Txn) : List Txn :=
  txns.filter (fun t => 100000 < t.amount)

/-- Embeds `_check_round_numbers` on the raw text. -/
def check_round_numbers (text : List Char) : List (List Char) :=
  findallRound (text.length + 1) none text

/-- Embeds `_check_cash_withdrawals`: transactions whose raw line contains a
withdrawal keyword. -/
def check_cash_withdrawals (txns : List Txn) : List Txn :=
  txns.filter fun t =>
    ["ATM", "WITHDRAWAL", "CASH", "WITHDRAW"].any fun kw =>
      isSubstringOf kw.data (t.raw_line.data.map Char.toUpper)

/-- Anchored match of the balance pattern: the word balance, one or more
colon-or-whitespace characters, optional minus, whitespace, optional
rupee sign, whitespace, a digit. -/
def matchNegBalanceAt (s : List Char) : Bool :=
  if (s.take 7).map Char.toUpper = "BALANCE".data then
    let r1 := s.drop 7
    let sp := r1.takeWhile (fun c => c = ':' || isPySpace c)
    if sp = [] then false
    else
      let r2 := r1.drop sp.length
      let r3 := match r2 with
        | '-' :: r => r
        | r => r
      let r4 := r3.dropWhile isPySpace
      let r5 := match r4 with
        | '₹' :: r => r
        | r => r
      let r6 := r5.dropWhile isPySpace
      match r6 with
      | c :: _ => isDigitCh c
      | [] => false
  else false

def searchNegBalance : List Char → Bool
  | [] => false
  | c :: rest => matchNegBalanceAt (c :: rest) || searchNegBalance rest

/-- Embeds `_check_negative_balance` on the uppercased text. -/
def check_negative_balance (text : List Char) : Bool :=
  let up := text.map Char.toUpper
  searchNegBalance up || isSubstringOf "OVERDRAFT".data up
    || isSubstringOf "NEGATIVE".data up || isSubstringOf "DEFICIT".data up

/-- Embeds `_check_duplicate_transactions`: index pairs sharing (amount, date),
first-seen index recorded per key. -/
def dupTxnAux : List Txn → Nat → List ((ℚ × Option String) × Nat) →
    List (Nat × Nat)
  | [], _, _ => []
  | t :: ts, i, seen =>
    match seen.lookup (t.amount, t.date) with
    | some j => (j, i) :: dupTxnAux ts (i + 1) seen
    | none => dupTxnAux ts (i + 1) (((t.amount, t.date), i) :: seen)

def check_duplicate_transactions (txns : List Txn) : List (Nat × Nat) :=
  dupTxnAux txns 0 []

/-- The sum of the fixed point values of the triggered heuristics
(30, 25, 15, 20, 40, 35), before the cap at 100. -/
def triggeredRiskTotal (text : String) (documentType : String) : Nat :=
  let txns := extract_transactions text documentType
  (if 10 < check_rapid_transactions txns then 30 else 0)
  + (if check_large_amounts txns ≠ [] then 25 else 0)
  + (if check_round_numbers text.data ≠ [] then 15 else 0)
  + (if 5 < (check_cash_withdrawals txns).length then 20 else 0)
  + (if check_negative_balance text.data then 40 else 0)
  + (if check_duplicate_transactions txns ≠ [] then 35 else 0)

/-- Embeds `TransactionAnalysisService.analyze_transaction_document`.  Zero
parsed transactions short-circuit to a fixed score of 50; otherwise the
six checks contribute fixed points, summed, capped at 100, suspicious at
40 or more.  (The `analysis_details` payload is a restatement of the
indicators and is omitted.) -/
def analyze_transaction_document (text : String) (documentType : String) :
    TxnAnalysis :=
  let txns := extract_transactions text documentType
  if txns.length = 0 then
    { is_suspicious := true, risk_score := 50
      suspicious_indicators := [.noTransactionsFound], transaction_count := 0 }
  else
    let rapid := check_rapid_transactions txns
    let large := check_large_amounts txns
    let roundM := check_round_numbers text.data
    let cash := check_cash_withdrawals txns
    let neg := check_negative_balance text.data
    let dups := check_duplicate_transactions txns
    let inds :=
      (if 10 < rapid then [TxnIndicator.rapidTransactions rapid] else [])
      ++ (if large ≠ [] then [TxnIndicator.largeAmounts large.length] else [])
      ++ (if roundM ≠ [] then [TxnIndicator.roundNumbers roundM.length] else [])
      ++ (if 5 < cash.length then [TxnIndicator.frequentCashWithdrawals cash.length] else [])
      ++ (if neg then [TxnIndicator.negativeBalance] else [])
      ++ (if dups ≠ [] then [TxnIndicator.duplicateTransactions dups.length] else [])
    let total := triggeredRiskTotal text documentType
    { is_suspicious := decide (40 ≤ min 100 total)
      risk_score := min 100 total
      suspicious_indicators := inds
      transaction_count := txns.length }

/-! ### FaceDedupeService.check_duplicate

Embeddings are numpy float vectors; they are modelled as real vectors so
that the square root in the norm is exact.  `max(similarities)` and
`similarities.index(max_similarity)` are the Python maximum and the first
index attaining it. -/

/-- Embeds `FaceDedupeService._cosine_similarity`: dot product over the product
of Euclidean norms, 0 when either norm is zero. -/
noncomputable def cosine_similarity (v1 v2 : List ℝ) : ℝ :=
  let dot := (List.zipWith (· * ·) v1 v2).sum
  let norm1 := Real.sqrt ((v1.map (fun x => x * x)).sum)
  let norm2 := Real.sqrt ((v2.map (fun x => x * x)).sum)
  if norm1 = 0 ∨ norm2 = 0 then 0 else dot / (norm1 * norm2)

/-- Python `max` over a nonempty real list (the empty case is unreachable
where this is used). -/
noncomputable def pyMaxR : List ℝ → ℝ
  | [] => 0
  | x :: xs => xs.foldl max x

open Classical in
/-- Embeds `list.index(m)`: the first index whose element equals `m`. -/
noncomputable def firstIdxOf (m : ℝ) : List ℝ → Nat
  | [] => 0
  | x :: xs => if x = m then 0 else firstIdxOf m xs + 1

/-- The `similarities` list of `check_duplicate`: the cosine similarity
of the new embedding with each candidate embedding, in candidate order. -/
noncomputable def similarities (newEmbedding : List ℝ)
    (existingEmbeddings : List (List ℝ)) : List ℝ :=
  existingEmbeddings.map (cosine_similarity newEmbedding)

/-- Embeds `max_similarity = max(similarities)`. -/
noncomputable def max_similarity (newEmbedding : List ℝ)
    (existingEmbeddings : List (List ℝ)) : ℝ :=
  pyMaxR (similarities newEmbedding existingEmbeddings)

/-- Embeds `max_index = similarities.index(max_similarity)`. -/
noncomputable def max_index (newEmbedding : List ℝ)
    (existingEmbeddings : List (List ℝ)) : Nat :=
  firstIdxOf (max_similarity newEmbedding existingEmbeddings)
    (similarities newEmbedding existingEmbeddings)

open Classical in
/-- Embeds `FaceDedupeService.check_duplicate` (threshold 0.85).  The matched
identifier is looked up by the first maximal index; out-of-range lookup
(an exception in Python, impossible for parallel candidate lists) yields
`none`. -/
noncomputable def check_duplicate (newEmbedding : List ℝ)
    (existingUkns : List String) (existingEmbeddings : List (List ℝ)) :
    Bool × Option String × ℝ :=
  match existingEmbeddings with
  | [] => (false, none, 0)
  | _ :: _ =>
    if (0.85 : ℝ) ≤ max_similarity newEmbedding existingEmbeddings then
      (true, existingUkns.get? (max_index newEmbedding existingEmbeddings),
        max_similarity newEmbedding existingEmbeddings)
    else (false, none, max_similarity newEmbedding existingEmbeddings)

/-! ### The decision state machine

One `KYCApplication` row, with timestamps in days, comments as structured
values carrying the interpolated data, and the per-request environment
(OCR, face matching, dedupe, risk scoring, UKN generation, clock) passed
explicitly.  Statuses are the string vocabulary of the API. -/

inductive Status where
  | DRAFT | REGISTERED | UPLOADED | PROCESSING
  | IN_REVIEW | FLAGGED | VERIFIED | REJECTED | REQUEST_INFO
deriving DecidableEq, Repr

/-- Reviewer-comment values, carrying the data of the formatted strings;
`combined` models appending with a newline to an existing comment. -/
inductive Comment where
  | detailsMismatch (reasons : List Reason)
  | duplicateDetected (existingUkn : String)
  | autoApproved
  | flaggedTransaction (indicators : List TxnIndicator)
  | livenessFailed
  | reviewer (text : String)
  | reviewerDefault
  | combined (first second : Comment)
deriving DecidableEq, Repr

/-- A stored document row; `extracted_data = none` models a missing or
empty extraction payload. -/
structure KYCDocument where
  doc_type : String
  extracted_data : Option ExtractedData
deriving DecidableEq, Repr

/-- A `kyc_applications` row (the fields the decision engine reads or
writes). -/
structure KYCApp where
  user_id : Nat
  status : Status
  ukn : Option String
  risk_score : Option ℚ
  face_match_score : Option ℚ
  reviewer_comment : Option Comment
  user_details : Option UserDetails
  verified_at : Option Nat
  expires_at : Option Nat
  documents : List KYCDocument
deriving DecidableEq, Repr

/-- Per-request environment of `process_kyc_application`: the results of
the external providers and the generator draws.  `fresh_ukn` is the
output of the generate-and-re-roll loop; `now` is the single clock value
of the request. -/
structure ProcessEnv where
  ocr_extract : ExtractedData
  face_match_score : Option ℚ
  duplicate_ukn : Option String
  risk_score : ℚ
  fresh_ukn : String
  now : Nat
deriving DecidableEq, Repr

inductive ProcessError where
  | alreadyProcessed
  | noDocuments
deriving DecidableEq, Repr

/-- Outcome of one `process` call, carrying the post-state of the case:
an HTTP 400 with the case untouched, a deterministic rejection (HTTP 400
after committing `REJECTED`), or a completed run. -/
inductive ProcessOutcome where
  | failed (e : ProcessError) (app : KYCApp)
  | rejectedMismatch (reasons : List Reason) (app : KYCApp)
  | completed (app : KYCApp)
deriving DecidableEq, Repr

def ProcessOutcome.post : ProcessOutcome → KYCApp
  | .failed _ a => a
  | .rejectedMismatch _ a => a
  | .completed a => a

/-- The identity document used for validation:
`next((d for d in documents if d.doc_type != "SELFIE"), None)`. -/
def idDoc (app : KYCApp) : Option KYCDocument :=
  app.documents.find? (fun d => ¬ d.doc_type = "SELFIE")

def selfieDoc (app : KYCApp) : Option KYCDocument :=
  app.documents.find? (fun d => d.doc_type = "SELFIE")

/-- The extraction payload used for validation: the stored one, or the
fresh OCR result when the stored one is missing or empty. -/
def effExtracted (d : KYCDocument) (env : ProcessEnv) : ExtractedData :=
  match d.extracted_data with
  | some e => e
  | none => env.ocr_extract

/-- The claim-validation branch of `process`: `some reasons` when the
identity document and the user details are both present and validation
fails; `none` when it passes or is skipped. -/
def validationOutcome (app : KYCApp) (env : ProcessEnv) : Option (List Reason) :=
  match idDoc app, app.user_details with
  | some idd, some ud =>
    let r := validate_user_details ud (effExtracted idd env) idd.doc_type
    if r.1 then none else some r.2
  | _, _ => none

/-- The duplicate result actually used by the resolution: the dedupe
check only runs when both a selfie and an identity document are present. -/
def effectiveDuplicate (app : KYCApp) (env : ProcessEnv) : Option String :=
  if (selfieDoc app).isSome ∧ (idDoc app).isSome then env.duplicate_ukn
  else none

/-- Embeds `process_kyc_application`: status guard, no-documents guard,
deterministic rejection on claim mismatch, then the resolution order of
the source — duplicate first, auto-approval below risk 0.3 with UKN
issuance and a 365-day expiry, manual review otherwise (the medium and
high risk branches of the source are textually separate but identical). -/
def process (app : KYCApp) (env : ProcessEnv) : ProcessOutcome :=
  if ¬ (app.status = .UPLOADED ∨ app.status = .DRAFT ∨ app.status = .REGISTERED) then
    .failed .alreadyProcessed app
  else if app.documents = [] then
    .failed .noDocuments app
  else
    match validationOutcome app env with
    | some reasons =>
      .rejectedMismatch reasons
        { app with status := .REJECTED
                   reviewer_comment := some (.detailsMismatch reasons) }
    | none =>
      let app1 := { app with
        face_match_score :=
          if (selfieDoc app).isSome ∧ (idDoc app).isSome then env.face_match_score
          else app.face_match_score
        risk_score := some env.risk_score }
      match effectiveDuplicate app env with
      | some u =>
        .completed { app1 with status := .IN_REVIEW
                               reviewer_comment := some (.duplicateDetected u) }
      | none =>
        if env.risk_score < 3 / 10 then
          .completed { app1 with
            status := .VERIFIED
            ukn := some env.fresh_ukn
            verified_at := some env.now
            expires_at := some (env.now + 365)
            reviewer_comment := some .autoApproved }
        else
          .completed { app1 with status := .IN_REVIEW }

inductive ReviewError where
  | invalidStatus (s : Status)
deriving DecidableEq, Repr

/-- Embeds `approve_kyc_application`: valid only from IN_REVIEW, PROCESSING or
REQUEST_INFO; issues a UKN only when the case has none; sets VERIFIED,
the reviewer comment, and the 365-day expiry. -/
def approve_application (app : KYCApp) (comment : Option String)
    (freshUkn : String) (now : Nat) : Except ReviewError KYCApp :=
  if ¬ (app.status = .IN_REVIEW ∨ app.status = .PROCESSING ∨ app.status = .REQUEST_INFO) then
    .error (.invalidStatus app.status)
  else
    let ukn := match app.ukn with
      | some u => u
      | none => freshUkn
    .ok { app with
      ukn := some ukn
      status := .VERIFIED
      reviewer_comment := comment.map .reviewer
      verified_at := some now
      expires_at := some (now + 365) }

/-- Embeds `reject_kyc_application`: valid only from IN_REVIEW, PROCESSING or
REQUEST_INFO; an empty comment is replaced by the default reviewer
comment (`comment or "Application rejected by reviewer"`). -/
def reject_application (app : KYCApp) (comment : String) :
    Except ReviewError KYCApp :=
  if ¬ (app.status = .IN_REVIEW ∨ app.status = .PROCESSING ∨ app.status = .REQUEST_INFO) then
    .error (.invalidStatus app.status)
  else
    .ok { app with
      status := .REJECTED
      reviewer_comment :=
        some (if comment = "" then .reviewerDefault else .reviewer comment) }

/-- Per-request environment of `upload_document`: the document type, the
extraction payload attached to the new document, the liveness verdict for
selfie videos, and the OCR raw text fed to the transaction analyzer. -/
structure UploadEnv where
  doc_type : String
  extracted : ExtractedData
  liveness_is_live : Option Bool
  raw_text : String
deriving DecidableEq, Repr

/-- The transaction analysis performed during an upload: only for
bank-statement and utility-bill documents. -/
def uploadTxnAnalysis (env : UploadEnv) : Option TxnAnalysis :=
  if env.doc_type = "BANK_STATEMENT" ∨ env.doc_type = "UTILITY_BILL" then
    some (analyze_transaction_document env.raw_text env.doc_type)
  else none

/-- The validation performed during an upload: only for non-selfie
documents of a case with user details. -/
def uploadValidOk (app : KYCApp) (env : UploadEnv) : Bool :=
  match app.user_details with
  | some ud =>
    if ¬ env.doc_type = "SELFIE" then
      (validate_user_details ud env.extracted env.doc_type).1
    else true
  | none => true

/-- Upload stage 1: append the new document row. -/
def uploadDocAppend (env : UploadEnv) (a : KYCApp) : KYCApp :=
  { a with documents := a.documents ++ [⟨env.doc_type, some env.extracted⟩] }

/-- Upload stage 2: REGISTERED or DRAFT cases move to UPLOADED. -/
def uploadStatusStep (a : KYCApp) : KYCApp :=
  if a.status = .REGISTERED ∨ a.status = .DRAFT then { a with status := .UPLOADED }
  else a

/-- Upload stage 3: a failed validation moves the case to IN_REVIEW. -/
def uploadValidityStep (validOk : Bool) (a : KYCApp) : KYCApp :=
  if validOk then a else { a with status := .IN_REVIEW }

/-- Upload stage 4: a suspicious transaction document moves the case to
FLAGGED with the flagging comment. -/
def uploadTxnStep (t : Option TxnAnalysis) (a : KYCApp) : KYCApp :=
  match t with
  | some ta =>
    if ta.is_suspicious then
      { a with status := .FLAGGED
               reviewer_comment := some (.flaggedTransaction ta.suspicious_indicators) }
    else a
  | none => a

/-- Upload stage 5: a failed selfie liveness check moves the case to
FLAGGED, appending to any existing comment. -/
def uploadLivenessStep (env : UploadEnv) (a : KYCApp) : KYCApp :=
  if env.doc_type = "SELFIE" ∧ env.liveness_is_live = some false then
    { a with status := .FLAGGED
             reviewer_comment :=
               match a.reviewer_comment with
               | none => some .livenessFailed
               | some c => some (.combined c .livenessFailed) }
  else a

/-- The case mutation of `upload_document`, in source order: append the
document, REGISTERED/DRAFT move to UPLOADED, a failed validation moves to
IN_REVIEW, a suspicious transaction document moves to FLAGGED, a failed
selfie liveness check moves to FLAGGED appending to any existing comment.
There is no guard on the current status. -/
def upload_document (app : KYCApp) (env : UploadEnv) : KYCApp :=
  uploadLivenessStep env
    (uploadTxnStep (uploadTxnAnalysis env)
      (uploadValidityStep (uploadValidOk app env)
        (uploadStatusStep (uploadDocAppend env app))))

/-- The fresh application row created by the endpoints
(status REGISTERED, nothing else set). -/
def newApp (uid : Nat) : KYCApp :=
  { user_id := uid, status := .REGISTERED, ukn := none, risk_score := none
    face_match_score := none, reviewer_comment := none, user_details := none
    verified_at := none, expires_at := none, documents := [] }

/-- The whole case store. -/
abbrev SysState := List KYCApp

/-- All issued unique verification numbers. -/
def stateUkns (s : SysState) : List String := s.filterMap (fun a => a.ukn)

def exceptPost (pre : KYCApp) : Except ReviewError KYCApp → KYCApp
  | .ok a => a
  | .error _ => pre

/-- One decision-engine request (the endpoints that mutate a case other
than document upload).  The UKN freshness hypotheses model the
generate-and-re-roll loop against the unique column.  The create guard
models the one-application-per-user unique constraint. -/
inductive Step : SysState → SysState → Prop
  | create (s : SysState) (uid : Nat)
      (hnew : ∀ a ∈ s, a.user_id ≠ uid) :
      Step s (s ++ [newApp uid])
  | setDetails (pre post : SysState) (a : KYCApp) (ud : UserDetails) :
      Step (pre ++ a :: post) (pre ++ { a with user_details := some ud } :: post)
  | processCommit (pre post : SysState) (a : KYCApp) (env : ProcessEnv)
      (hst : a.status = .UPLOADED ∨ a.status = .DRAFT ∨ a.status = .REGISTERED)
      (hdocs : a.documents ≠ [])
      (hval : validationOutcome a env = none) :
      Step (pre ++ a :: post) (pre ++ { a with status := .PROCESSING } :: post)
  | processRun (pre post : SysState) (a : KYCApp) (env : ProcessEnv)
      (hfresh : env.fresh_ukn ∉ stateUkns (pre ++ a :: post)) :
      Step (pre ++ a :: post) (pre ++ (process a env).post :: post)
  | approve (pre post : SysState) (a : KYCApp) (comment : Option String)
      (fresh : String) (now : Nat)
      (hfresh : fresh ∉ stateUkns (pre ++ a :: post)) :
      Step (pre ++ a :: post)
        (pre ++ exceptPost a (approve_application a comment fresh now) :: post)
  | reject (pre post : SysState) (a : KYCApp) (comment : String) :
      Step (pre ++ a :: post)
        (pre ++ exceptPost a (reject_application a comment) :: post)

/-- One request of any case-mutating endpoint: a decision-engine request
or a document upload. -/
inductive FullStep : SysState → SysState → Prop
  | dsm {s t : SysState} (h : Step s t) : FullStep s t
  | upload (pre post : SysState) (a : KYCApp) (env : UploadEnv) :
      FullStep (pre ++ a :: post) (pre ++ upload_document a env :: post)

/-- States reachable from the empty store through the case-mutating
endpoints. -/
def FullReachable (s : SysState) : Prop :=
  Relation.ReflTransGen FullStep [] s

/-- The per-case invariant claimed by the specification: the unique
number is non-null exactly on VERIFIED cases, and VERIFIED cases expire
exactly 365 days after verification. -/
def AppInv (a : KYCApp) : Prop :=
  (a.ukn ≠ none ↔ a.status = .VERIFIED) ∧
  (a.status = .VERIFIED → ∃ t, a.verified_at = some t ∧ a.expires_at = some (t + 365))

/-- The claimed system invariant: every case satisfies `AppInv` and no
unique number is held by two cases. -/
def SysInv (s : SysState) : Prop :=
  (∀ a ∈ s, AppInv a) ∧ (stateUkns s).Nodup

/-- The directions of the invariant that survive document uploads:
every VERIFIED case has a unique number and the exact 365-day expiry. -/
def AppInvWeak (a : KYCApp) : Prop :=
  a.status = .VERIFIED →
    a.ukn ≠ none ∧ ∃ t, a.verified_at = some t ∧ a.expires_at = some (t + 365)

/-- The amended system invariant. -/
def SysInvWeak (s : SysState) : Prop :=
  (∀ a ∈ s, AppInvWeak a) ∧ (stateUkns s).Nodup

/-- Auxiliary inductive strengthening: cases in the pre-decision statuses
never hold a unique number. -/
def AppInvAux (a : KYCApp) : Prop :=
  (a.status = .DRAFT ∨ a.status = .REGISTERED ∨ a.status = .UPLOADED ∨
    a.status = .PROCESSING) → a.ukn = none

def SysInvAux (s : SysState) : Prop :=
  (∀ a ∈ s, AppInvWeak a ∧ AppInvAux a) ∧ (stateUkns s).Nodup

/-! ## Theorems -/

/-- C10: for every new fingerprint, `check_duplicate` with an empty
candidate list returns exactly no-duplicate, no matched identifier, and
similarity 0 — an applicant is never flagged as a duplicate when no
verified fingerprints exist. -/
theorem check_duplicate_empty_candidates (newEmbedding : List ℝ)
    (existingUkns : List String) :
    check_duplicate newEmbedding existingUkns [] = (false, none, 0) := rfl

theorem countBlinks_eq_closedRuns (l : List Bool) :
    countBlinksAux l false = closedRunCount l ∧
    countBlinksAux l true = closedRunCount (l.dropWhile (· = true)) := by
  induction l with
  | nil => simp [countBlinksAux, closedRunCount]
  | cons b bs ih =>
    cases b
    · exact ⟨by simp [countBlinksAux, closedRunCount, ih.1],
        by simp [countBlinksAux, List.dropWhile, closedRunCount, ih.1]⟩
    · exact ⟨by simp [countBlinksAux, closedRunCount, ih.2],
        by simp [countBlinksAux, List.dropWhile, ih.2]⟩

/-- C6: on any sequence of per-frame closed-eye states, video liveness
analyzes at most 30 frames, counts one blink per maximal run of
consecutive closed frames, is live exactly when at least one blink was
counted, and reports confidence `min 1 (blinkCount / 2)`; the sequence
open, open, closed, closed, open, closed, open yields two blinks and a
live verdict. -/
theorem liveness_video_spec :
    (∀ closedStates : List Bool,
      (detect_liveness_from_video closedStates).blink_count =
        closedRunCount (closedStates.take 30) ∧
      ((detect_liveness_from_video closedStates).is_live = true ↔
        1 ≤ (detect_liveness_from_video closedStates).blink_count) ∧
      (detect_liveness_from_video closedStates).confidence =
        min 1 (((detect_liveness_from_video closedStates).blink_count : ℚ) / 2) ∧
      (detect_liveness_from_video closedStates).frames_analyzed =
        (closedStates.take 30).length) ∧
    detect_liveness_from_video [false, false, true, true, false, true, false] =
      { is_live := true, blink_count := 2, confidence := 1, frames_analyzed := 7 } := by
  constructor
  · intro cs
    refine ⟨?_, ?_, rfl, rfl⟩
    · simpa [detect_liveness_from_video] using (countBlinks_eq_closedRuns (cs.take 30)).1
    · simp [detect_liveness_from_video]
  · have h2 : countBlinksAux [false, false, true, true, false, true, false] false = 2 := by
      decide
    simp [detect_liveness_from_video, h2]

/-- C3: on a case whose status is outside UPLOADED, DRAFT and REGISTERED
(in particular a VERIFIED case), `process` fails with the
already-processed error, leaves the case unchanged, and does not issue a
unique verification number. -/
theorem process_already_processed (app : KYCApp) (env : ProcessEnv)
    (h : ¬ (app.status = .UPLOADED ∨ app.status = .DRAFT ∨ app.status = .REGISTERED)) :
    process app env = .failed .alreadyProcessed app ∧
    (process app env).post = app ∧
    (process app env).post.ukn = app.ukn := by
  have hp : process app env = .failed .alreadyProcessed app := by
    simp [process, h]
  exact ⟨hp, by simp [hp, ProcessOutcome.post], by simp [hp, ProcessOutcome.post]⟩

def c3App : KYCApp :=
  { newApp 7 with status := .VERIFIED, ukn := some "KYC-0123-4567-89AB"
                  verified_at := some 10, expires_at := some 375 }

def c3Env : ProcessEnv :=
  { ocr_extract := ⟨"", "", "", ""⟩, face_match_score := none
    duplicate_ukn := none, risk_score := 1 / 10
    fresh_ukn := "KYC-AAAA-BBBB-CCCC", now := 20 }

/-- Witness for C3 at a concrete VERIFIED case. -/
theorem process_already_processed_witness :
    ¬ (c3App.status = .UPLOADED ∨ c3App.status = .DRAFT ∨ c3App.status = .REGISTERED) ∧
    (process c3App c3Env = .failed .alreadyProcessed c3App ∧
      (process c3App c3Env).post = c3App ∧
      (process c3App c3Env).post.ukn = c3App.ukn) :=
  ⟨by decide, process_already_processed c3App c3Env (by decide)⟩

def c9App : KYCApp := { newApp 3 with status := .IN_REVIEW }

/-- C9 counterexample: a reject with an empty supplied comment does not
fail — from IN_REVIEW it succeeds, changes the case to REJECTED and
records the default reviewer comment. -/
theorem reject_empty_comment_succeeds :
    reject_application c9App "" =
      .ok { c9App with status := .REJECTED,
                       reviewer_comment := some .reviewerDefault } ∧
    exceptPost c9App (reject_application c9App "") ≠ c9App := by
  exact ⟨rfl, by decide⟩

/-- C9 (amended): a reviewer reject succeeds exactly when the case status
is IN_REVIEW, PROCESSING or REQUEST_INFO — the comment may be empty, in
which case a default comment is recorded — and from any other status it
fails leaving the case unchanged. -/
theorem reject_spec (app : KYCApp) (comment : String) :
    ((app.status = .IN_REVIEW ∨ app.status = .PROCESSING ∨ app.status = .REQUEST_INFO) →
      reject_application app comment =
        .ok { app with status := .REJECTED,
                       reviewer_comment :=
                         some (if comment = "" then .reviewerDefault
                               else .reviewer comment) }) ∧
    (¬ (app.status = .IN_REVIEW ∨ app.status = .PROCESSING ∨ app.status = .REQUEST_INFO) →
      reject_application app comment = .error (.invalidStatus app.status)) := by
  constructor
  · intro h
    simp [reject_application, h]
  · intro h
    simp [reject_application, h]

def c9App2 : KYCApp := { newApp 4 with status := .PROCESSING }

theorem mem_of_ite_nil {α : Type} {x : α} {c : Prop} [Decidable c]
    {l : List α} (h : x ∈ if c then l else []) : x ∈ l := by
  split at h
  · exact h
  · simp at h

theorem nameMismatch_not_in_dob (a b n1 n2 : String) (q : ℚ) :
    Reason.nameMismatch n1 n2 q ∉ reasonList (validate_date_of_birth a b) := by
  unfold validate_date_of_birth reasonList
  repeat' split
  all_goals simp

theorem nameMismatch_not_in_gender (a b n1 n2 : String) (q : ℚ) :
    Reason.nameMismatch n1 n2 q ∉ reasonList (validate_gender a b) := by
  unfold validate_gender reasonList
  repeat' split
  all_goals simp

theorem nameMismatch_not_in_address (a b n1 n2 : String) (q : ℚ) :
    Reason.nameMismatch n1 n2 q ∉ reasonList (validate_address a b) := by
  unfold validate_address reasonList
  repeat' split
  all_goals simp

/-- Witness for the amended C9 at a concrete PROCESSING case. -/
theorem reject_spec_witness :
    (c9App2.status = .IN_REVIEW ∨ c9App2.status = .PROCESSING ∨
      c9App2.status = .REQUEST_INFO) ∧
    reject_application c9App2 "fraud suspected" =
      .ok { c9App2 with status := .REJECTED,
                        reviewer_comment :=
                          some (if ("fraud suspected" : String) = ""
                                then .reviewerDefault
                                else .reviewer "fraud suspected") } :=
  ⟨by decide, (reject_spec c9App2 "fraud suspected").1 (by decide)⟩

/-- C4: for non-empty claimed and extracted names, validation appends the
name-mismatch reason — carrying both names and the measured similarity —
exactly when the similarity of the whitespace-collapsed uppercased names
is strictly below 0.75, and the overall result is valid exactly when no
reason of any kind was appended. -/
theorem validate_details_name_spec (ud : UserDetails) (ed : ExtractedData)
    (docType : String) (hu : ¬ ud.name = "") (he : ¬ ed.name = "") :
    (Reason.nameMismatch ud.name ed.name (nameSimilarity ud.name ed.name) ∈
        (validate_user_details ud ed docType).2 ↔
      nameSimilarity ud.name ed.name < 3 / 4) ∧
    ((validate_user_details ud ed docType).1 = true ↔
      (validate_user_details ud ed docType).2 = []) := by
  have hcond : ¬ (ud.name = "" ∨ ed.name = "") := by simp [hu, he]
  constructor
  · by_cases hs : 3 / 4 ≤ nameSimilarity ud.name ed.name
    · have hname : reasonList (validate_name ud.name ed.name) = [] := by
        unfold validate_name reasonList
        simp [hcond, hs]
      constructor
      · intro hmem
        exfalso
        unfold validate_user_details at hmem
        simp only [List.mem_append, hname, List.not_mem_nil, false_or] at hmem
        rcases hmem with (h | h) | h
        · exact nameMismatch_not_in_dob _ _ _ _ _ h
        · exact nameMismatch_not_in_gender _ _ _ _ _ (mem_of_ite_nil h)
        · exact nameMismatch_not_in_address _ _ _ _ _ (mem_of_ite_nil h)
      · intro hlt
        exact absurd hs (not_le.mpr hlt)
    · have hname : reasonList (validate_name ud.name ed.name) =
          [Reason.nameMismatch ud.name ed.name (nameSimilarity ud.name ed.name)] := by
        unfold validate_name reasonList
        simp [hcond, hs]
      constructor
      · intro _
        exact not_le.mp hs
      · intro _
        unfold validate_user_details
        simp [hname]
  · unfold validate_user_details
    simp [List.isEmpty_iff]

def c4Ud : UserDetails :=
  { name := "Jane A Smith", date_of_birth := "1992-07-04", gender := "F", address := "" }

def c4Ed : ExtractedData :=
  { name := "JANE A. SMITH", dob := "4 July 1992", gender := "FEMALE", address := "" }

/-- Witness for C4 at concrete matching details (similarity 24/25). -/
theorem validate_details_name_spec_witness :
    (¬ c4Ud.name = "" ∧ ¬ c4Ed.name = "") ∧
    ((Reason.nameMismatch c4Ud.name c4Ed.name (nameSimilarity c4Ud.name c4Ed.name) ∈
        (validate_user_details c4Ud c4Ed "PASSPORT").2 ↔
      nameSimilarity c4Ud.name c4Ed.name < 3 / 4) ∧
    ((validate_user_details c4Ud c4Ed "PASSPORT").1 = true ↔
      (validate_user_details c4Ud c4Ed "PASSPORT").2 = [])) :=
  ⟨⟨by decide, by decide⟩,
    validate_details_name_spec c4Ud c4Ed "PASSPORT" (by decide) (by decide)⟩

theorem findSome?_eq_none_iff {α β : Type} (f : α → Option β) (l : List α) :
    l.findSome? f = none ↔ ∀ x ∈ l, f x = none := by
  induction l with
  | nil => simp
  | cons a l ih =>
    rw [List.findSome?_cons]
    cases h : f a with
    | none =>
      rw [ih]
      simp [h]
    | some b => simp [h]

/-- The embedded `_parse_date` returns `none` exactly when every
accepted format fails and the fallback digit-triple scan fails. -/
theorem parse_date_eq_none_iff (e : String) :
    parse_date e = none ↔
      ((∀ fmt ∈ dateFormats, strptimeDate fmt (pyStrip e.data) = none) ∧
        fallbackDateScan (pyStrip e.data) = none) := by
  unfold parse_date
  by_cases he : e = ""
  · subst he
    simp only [if_pos rfl, true_iff]
    exact ⟨by decide, by decide⟩
  · rw [if_neg he]
    cases hfs : dateFormats.findSome? (fun fmt => strptimeDate fmt (pyStrip e.data)) with
    | some d =>
      have hne : ¬ ∀ fmt ∈ dateFormats, strptimeDate fmt (pyStrip e.data) = none := by
        intro hall
        rw [(findSome?_eq_none_iff _ _).mpr hall] at hfs
        simp at hfs
      constructor
      · intro h
        simp at h
      · intro hand
        exact absurd hand.1 hne
    | none =>
      have hall := (findSome?_eq_none_iff _ _).mp hfs
      simp only [hall]
      simp
      intro _
      exact hall

/-- C8: the date-of-birth check appends a reason exactly when the claimed
date fails the strict four-digit-year ISO parse, or the extracted date
fails every accepted format and the fallback digit-triple scan, or the
two parsed dates are not exactly equal; and two-digit years in the
fallback scan map to the 2000s below 50 and to the 1900s otherwise. -/
theorem validate_dob_spec (userDob extractedDob : String) :
    ((validate_date_of_birth userDob extractedDob).2.isSome ↔
      strptimeUserDob userDob = none ∨
      ((∀ fmt ∈ dateFormats, strptimeDate fmt (pyStrip extractedDob.data) = none) ∧
        fallbackDateScan (pyStrip extractedDob.data) = none) ∨
      (∃ du de, strptimeUserDob userDob = some du ∧
        parse_date extractedDob = some de ∧ du ≠ de)) ∧
    (∀ y : Nat, y < 100 →
      pivotYear y = if y < 50 then y + 2000 else y + 1900) := by
  constructor
  · unfold validate_date_of_birth
    by_cases h0 : userDob = "" ∨ extractedDob = ""
    · rw [if_pos h0]
      have hrhs : strptimeUserDob userDob = none ∨
          ((∀ fmt ∈ dateFormats, strptimeDate fmt (pyStrip extractedDob.data) = none) ∧
            fallbackDateScan (pyStrip extractedDob.data) = none) ∨
          (∃ du de, strptimeUserDob userDob = some du ∧
            parse_date extractedDob = some de ∧ du ≠ de) := by
        rcases h0 with h | h
        · exact Or.inl (by rw [h]; rfl)
        · exact Or.inr (Or.inl ((parse_date_eq_none_iff extractedDob).mp (by rw [h]; rfl)))
      exact iff_of_true (by simp) hrhs
    · rw [if_neg h0]
      cases hu : strptimeUserDob userDob with
      | none => simp
      | some du =>
        cases hp : parse_date extractedDob with
        | none =>
          have h2 := (parse_date_eq_none_iff extractedDob).mp hp
          exact iff_of_true (by simp) (Or.inr (Or.inl h2))
        | some de =>
          by_cases hde : du = de
          · apply iff_of_false
            · simp [hde]
            · rintro (h | h | ⟨du2, de2, hu2, hp2, hne⟩)
              · exact absurd h (by simp)
              · rw [(parse_date_eq_none_iff extractedDob).mpr h] at hp
                exact absurd hp (by simp)
              · injection hu2 with h1
                injection hp2 with h2
                subst h1
                subst h2
                exact hne hde
          · apply iff_of_true
            · simp [hde]
            · exact Or.inr (Or.inr ⟨du, de, rfl, rfl, hde⟩)
  · intro y hy
    unfold pivotYear
    rw [if_pos hy]

/-- Witness for C8: a matching pair where the extracted date is only
readable by the fallback scan with the two-digit-year pivot. -/
theorem validate_dob_spec_witness :
    ((validate_date_of_birth "1990-01-15" "dob 15/1/90 x").2.isSome ↔
      strptimeUserDob "1990-01-15" = none ∨
      ((∀ fmt ∈ dateFormats,
          strptimeDate fmt (pyStrip ("dob 15/1/90 x" : String).data) = none) ∧
        fallbackDateScan (pyStrip ("dob 15/1/90 x" : String).data) = none) ∨
      (∃ du de, strptimeUserDob "1990-01-15" = some du ∧
        parse_date "dob 15/1/90 x" = some de ∧ du ≠ de)) ∧
    (∀ y : Nat, y < 100 →
      pivotYear y = if y < 50 then y + 2000 else y + 1900) :=
  validate_dob_spec "1990-01-15" "dob 15/1/90 x"

/-- C7: for every extracted text, zero parsed transactions yield exactly
risk 50, suspicious, and the no-transactions indicator; otherwise the
risk score is the sum of the triggered heuristics' fixed point values
capped at 100, and the document is suspicious exactly when that total is
at least 40. -/
theorem transaction_analysis_spec (text documentType : String) :
    (extract_transactions text documentType = [] →
      analyze_transaction_document text documentType =
        { is_suspicious := true, risk_score := 50,
          suspicious_indicators := [.noTransactionsFound],
          transaction_count := 0 }) ∧
    (extract_transactions text documentType ≠ [] →
      (analyze_transaction_document text documentType).risk_score =
        min 100 (triggeredRiskTotal text documentType) ∧
      ((analyze_transaction_document text documentType).is_suspicious = true ↔
        40 ≤ triggeredRiskTotal text documentType)) := by
  constructor
  · intro h
    unfold analyze_transaction_document
    simp [h]
  · intro h
    have hlen : ¬ (extract_transactions text documentType).length = 0 := by
      simpa [List.length_eq_zero] using h
    unfold analyze_transaction_document
    rw [if_neg hlen]
    refine ⟨rfl, ?_⟩
    simp only [decide_eq_true_eq, Nat.le_min]
    constructor
    · intro hand
      exact hand.2
    · intro ht
      exact ⟨by norm_num, ht⟩

/-- Witness for C7: a text with no parsable transactions. -/
theorem transaction_analysis_spec_witness :
    extract_transactions "no data here" "BANK_STATEMENT" = [] ∧
    analyze_transaction_document "no data here" "BANK_STATEMENT" =
      { is_suspicious := true, risk_score := 50,
        suspicious_indicators := [.noTransactionsFound],
        transaction_count := 0 } :=
  ⟨by decide, (transaction_analysis_spec "no data here" "BANK_STATEMENT").1 (by decide)⟩

theorem foldl_max_eq_or_mem (xs : List ℝ) (x : ℝ) :
    xs.foldl max x = x ∨ xs.foldl max x ∈ xs := by
  induction xs generalizing x with
  | nil => exact Or.inl rfl
  | cons y ys ih =>
    rw [List.foldl_cons]
    rcases ih (max x y) with h | h
    · rcases max_choice x y with hm | hm
      · exact Or.inl (by rw [h, hm])
      · exact Or.inr (by rw [h, hm]; exact List.mem_cons_self _ _)
    · exact Or.inr (List.mem_cons_of_mem _ h)

theorem le_foldl_max (xs : List ℝ) (x : ℝ) :
    x ≤ xs.foldl max x ∧ ∀ a ∈ xs, a ≤ xs.foldl max x := by
  induction xs generalizing x with
  | nil => exact ⟨le_refl x, by simp⟩
  | cons y ys ih =>
    rw [List.foldl_cons]
    refine ⟨le_trans (le_max_left x y) (ih (max x y)).1, ?_⟩
    intro a ha
    rcases List.mem_cons.mp ha with rfl | ha
    · exact le_trans (le_max_right x a) (ih (max x a)).1
    · exact (ih (max x y)).2 a ha

/-- The Python maximum of a nonempty list is an element of the list. -/
theorem pyMaxR_mem (x : ℝ) (xs : List ℝ) : pyMaxR (x :: xs) ∈ x :: xs := by
  show List.foldl max x xs ∈ x :: xs
  rcases foldl_max_eq_or_mem xs x with h | h
  · rw [h]
    exact List.mem_cons_self _ _
  · exact List.mem_cons_of_mem _ h

/-- The Python maximum of a nonempty list bounds every element. -/
theorem pyMaxR_le (x : ℝ) (xs : List ℝ) : ∀ a ∈ x :: xs, a ≤ pyMaxR (x :: xs) := by
  intro a ha
  show a ≤ List.foldl max x xs
  rcases List.mem_cons.mp ha with rfl | ha
  · exact (le_foldl_max xs a).1
  · exact (le_foldl_max xs x).2 a ha

/-- The embedded `list.index(m)` returns the first index holding `m`:
it is in range, it holds `m`, and no earlier index holds `m`. -/
theorem firstIdxOf_spec (m : ℝ) (xs : List ℝ) (hm : m ∈ xs) :
    firstIdxOf m xs < xs.length ∧
    xs.get? (firstIdxOf m xs) = some m ∧
    ∀ j < firstIdxOf m xs, xs.get? j ≠ some m := by
  induction xs with
  | nil => simp at hm
  | cons y ys ih =>
    by_cases hy : y = m
    · refine ⟨?_, ?_, ?_⟩ <;> simp [firstIdxOf, hy]
    · have hm' : m ∈ ys := by
        rcases List.mem_cons.mp hm with h | h
        · exact absurd h.symm hy
        · exact h
      obtain ⟨h1, h2, h3⟩ := ih hm'
      refine ⟨?_, ?_, ?_⟩
      · simp only [firstIdxOf, hy, if_false, List.length_cons]
        omega
      · simpa [firstIdxOf, hy] using h2
      · intro j hj
        simp only [firstIdxOf, hy, if_false] at hj
        cases j with
        | zero => simp [hy]
        | succ j' =>
          simp only [List.get?_cons_succ]
          exact h3 j' (by omega)

/-- C5: on a non-empty candidate list, `check_duplicate` reports a
duplicate exactly when the maximum cosine similarity reaches 0.85, the
returned similarity is that maximum, and the matched identifier is the
candidate at the first index attaining the maximum (ties broken by
candidate order); below the threshold no identifier is returned. -/
theorem check_duplicate_spec (newEmbedding : List ℝ)
    (existingUkns : List String) (existingEmbeddings : List (List ℝ))
    (hne : existingEmbeddings ≠ [])
    (hlen : existingUkns.length = existingEmbeddings.length) :
    ((check_duplicate newEmbedding existingUkns existingEmbeddings).1 = true ↔
      (0.85 : ℝ) ≤ max_similarity newEmbedding existingEmbeddings) ∧
    (check_duplicate newEmbedding existingUkns existingEmbeddings).2.2 =
      max_similarity newEmbedding existingEmbeddings ∧
    (∀ s ∈ similarities newEmbedding existingEmbeddings,
      s ≤ max_similarity newEmbedding existingEmbeddings) ∧
    ((0.85 : ℝ) ≤ max_similarity newEmbedding existingEmbeddings →
      ∃ i, i < existingUkns.length ∧
        (similarities newEmbedding existingEmbeddings).get? i =
          some (max_similarity newEmbedding existingEmbeddings) ∧
        (∀ j < i, (similarities newEmbedding existingEmbeddings).get? j ≠
          some (max_similarity newEmbedding existingEmbeddings)) ∧
        (check_duplicate newEmbedding existingUkns existingEmbeddings).2.1 =
          existingUkns.get? i) ∧
    (¬ (0.85 : ℝ) ≤ max_similarity newEmbedding existingEmbeddings →
      (check_duplicate newEmbedding existingUkns existingEmbeddings).2.1 = none) := by
  obtain ⟨e, es, rfl⟩ : ∃ e es, existingEmbeddings = e :: es := by
    cases existingEmbeddings with
    | nil => exact absurd rfl hne
    | cons e es => exact ⟨e, es, rfl⟩
  have hsims : similarities newEmbedding (e :: es) =
      cosine_similarity newEmbedding e :: es.map (cosine_similarity newEmbedding) := by
    simp [similarities]
  have hmem : max_similarity newEmbedding (e :: es) ∈
      similarities newEmbedding (e :: es) := by
    rw [hsims]
    exact pyMaxR_mem _ _
  have hle : ∀ s ∈ similarities newEmbedding (e :: es),
      s ≤ max_similarity newEmbedding (e :: es) := by
    intro s hs
    rw [hsims] at hs
    exact pyMaxR_le _ _ s hs
  obtain ⟨hi1, hi2, hi3⟩ := firstIdxOf_spec _ _ hmem
  by_cases hth : (0.85 : ℝ) ≤ max_similarity newEmbedding (e :: es)
  · refine ⟨by simp [check_duplicate, hth], by simp [check_duplicate, hth], hle,
      ?_, fun h => absurd hth h⟩
    intro _
    refine ⟨max_index newEmbedding (e :: es), ?_, hi2, hi3, ?_⟩
    · have : (similarities newEmbedding (e :: es)).length = (e :: es).length := by
        simp [similarities]
      rw [hlen]
      rw [this] at hi1
      exact hi1
    · simp [check_duplicate, hth, max_index]
  · refine ⟨by simp [check_duplicate, hth], by simp [check_duplicate, hth], hle,
      fun h => absurd h hth, fun _ => by simp [check_duplicate, hth]⟩

def c5Ukns : List String := ["KYC-0001-0002-0003", "KYC-0004-0005-0006"]

/-- Witness for C5 at concrete one-dimensional embeddings. -/
theorem check_duplicate_spec_witness :
    ([[(1 : ℝ)], [(0 : ℝ)]] ≠ ([] : List (List ℝ))) ∧
    (c5Ukns.length = [[(1 : ℝ)], [(0 : ℝ)]].length) ∧
    (((check_duplicate [(1 : ℝ)] c5Ukns [[(1 : ℝ)], [(0 : ℝ)]]).1 = true ↔
      (0.85 : ℝ) ≤ max_similarity [(1 : ℝ)] [[(1 : ℝ)], [(0 : ℝ)]]) ∧
    (check_duplicate [(1 : ℝ)] c5Ukns [[(1 : ℝ)], [(0 : ℝ)]]).2.2 =
      max_similarity [(1 : ℝ)] [[(1 : ℝ)], [(0 : ℝ)]] ∧
    (∀ s ∈ similarities [(1 : ℝ)] [[(1 : ℝ)], [(0 : ℝ)]],
      s ≤ max_similarity [(1 : ℝ)] [[(1 : ℝ)], [(0 : ℝ)]]) ∧
    ((0.85 : ℝ) ≤ max_similarity [(1 : ℝ)] [[(1 : ℝ)], [(0 : ℝ)]] →
      ∃ i, i < c5Ukns.length ∧
        (similarities [(1 : ℝ)] [[(1 : ℝ)], [(0 : ℝ)]]).get? i =
          some (max_similarity [(1 : ℝ)] [[(1 : ℝ)], [(0 : ℝ)]]) ∧
        (∀ j < i, (similarities [(1 : ℝ)] [[(1 : ℝ)], [(0 : ℝ)]]).get? j ≠
          some (max_similarity [(1 : ℝ)] [[(1 : ℝ)], [(0 : ℝ)]])) ∧
        (check_duplicate [(1 : ℝ)] c5Ukns [[(1 : ℝ)], [(0 : ℝ)]]).2.1 =
          c5Ukns.get? i) ∧
    (¬ (0.85 : ℝ) ≤ max_similarity [(1 : ℝ)] [[(1 : ℝ)], [(0 : ℝ)]] →
      (check_duplicate [(1 : ℝ)] c5Ukns [[(1 : ℝ)], [(0 : ℝ)]]).2.1 = none)) :=
  ⟨by simp, by simp [c5Ukns],
    check_duplicate_spec [(1 : ℝ)] c5Ukns [[(1 : ℝ)], [(0 : ℝ)]]
      (by simp) (by simp [c5Ukns])⟩

/-- C1: a `process` call on a case in a processable status with at least
one document that passes claim validation completes, and resolves in
order: a detected duplicate forces IN_REVIEW regardless of the risk
probability; otherwise risk below 0.3 auto-approves — VERIFIED with the
freshly issued unique verification number and a 365-day expiry — and
risk at or above 0.3 yields IN_REVIEW. -/
theorem process_resolution_spec (app : KYCApp) (env : ProcessEnv)
    (hst : app.status = .UPLOADED ∨ app.status = .DRAFT ∨ app.status = .REGISTERED)
    (hdocs : app.documents ≠ [])
    (hval : validationOutcome app env = none) :
    ∃ processedApp,
      process app env = .completed processedApp ∧
      (∀ u, effectiveDuplicate app env = some u →
        processedApp.status = .IN_REVIEW) ∧
      (effectiveDuplicate app env = none → env.risk_score < 3 / 10 →
        processedApp.status = .VERIFIED ∧
        processedApp.ukn = some env.fresh_ukn ∧
        processedApp.verified_at = some env.now ∧
        processedApp.expires_at = some (env.now + 365)) ∧
      (effectiveDuplicate app env = none → ¬ env.risk_score < 3 / 10 →
        processedApp.status = .IN_REVIEW) := by
  unfold process
  rw [if_neg (not_not_intro hst), if_neg hdocs, hval]
  cases hdup : effectiveDuplicate app env with
  | some u =>
    refine ⟨_, rfl, fun u2 _ => rfl, ?_, ?_⟩
    · intro h
      exact absurd h (by simp)
    · intro h
      exact absurd h (by simp)
  | none =>
    dsimp only
    by_cases hr : env.risk_score < 3 / 10
    · rw [if_pos hr]
      exact ⟨_, rfl, fun u2 h => by simp at h, fun _ _ => ⟨rfl, rfl, rfl, rfl⟩,
        fun _ h => absurd hr h⟩
    · rw [if_neg hr]
      exact ⟨_, rfl, fun u2 h => by simp at h, fun _ h => absurd h hr,
        fun _ _ => rfl⟩

def c1Doc : KYCDocument :=
  { doc_type := "PASSPORT"
    extracted_data :=
      some { name := "JOHN SMITH", dob := "15/01/1990", gender := "", address := "" } }

def c1App : KYCApp :=
  { newApp 1 with
    status := .UPLOADED
    user_details :=
      some { name := "John Smith", date_of_birth := "1990-01-15",
             gender := "", address := "" }
    documents := [c1Doc] }

def c1Env : ProcessEnv :=
  { ocr_extract := ⟨"", "", "", ""⟩, face_match_score := some (9 / 10)
    duplicate_ukn := none, risk_score := 1 / 10
    fresh_ukn := "KYC-0A1B-2C3D-4E5F", now := 100 }

/-- Witness for C1: a concrete low-risk case whose claim validation
passes (exercising the name-similarity and date-parsing pipeline). -/
theorem process_resolution_spec_witness :
    (c1App.status = .UPLOADED ∨ c1App.status = .DRAFT ∨ c1App.status = .REGISTERED) ∧
    c1App.documents ≠ [] ∧
    validationOutcome c1App c1Env = none ∧
    (∃ processedApp,
      process c1App c1Env = .completed processedApp ∧
      (∀ u, effectiveDuplicate c1App c1Env = some u →
        processedApp.status = .IN_REVIEW) ∧
      (effectiveDuplicate c1App c1Env = none → c1Env.risk_score < 3 / 10 →
        processedApp.status = .VERIFIED ∧
        processedApp.ukn = some c1Env.fresh_ukn ∧
        processedApp.verified_at = some c1Env.now ∧
        processedApp.expires_at = some (c1Env.now + 365)) ∧
      (effectiveDuplicate c1App c1Env = none → ¬ c1Env.risk_score < 3 / 10 →
        processedApp.status = .IN_REVIEW)) :=
  ⟨by decide, by decide, by with_unfolding_all decide,
    process_resolution_spec c1App c1Env (by decide) (by decide)
      (by with_unfolding_all decide)⟩

theorem stateUkns_append (s t : SysState) :
    stateUkns (s ++ t) = stateUkns s ++ stateUkns t := by
  simp [stateUkns]

theorem stateUkns_cons (a : KYCApp) (s : SysState) :
    stateUkns (a :: s) = a.ukn.toList ++ stateUkns s := by
  cases h : a.ukn <;> simp [stateUkns, List.filterMap_cons, h]

/-- Replacing one case with another that keeps its unique number — or
issues a fresh one to a case that had none — preserves the auxiliary
system invariant, provided the new case satisfies the per-case parts. -/
theorem sysInvAux_replace (pre post : SysState) (a x : KYCApp)
    (hinv : SysInvAux (pre ++ a :: post))
    (hx : AppInvWeak x ∧ AppInvAux x)
    (hukn : x.ukn = a.ukn ∨
      (a.ukn = none ∧ ∃ u, x.ukn = some u ∧ u ∉ stateUkns (pre ++ a :: post))) :
    SysInvAux (pre ++ x :: post) := by
  obtain ⟨hmem, hnodup⟩ := hinv
  constructor
  · intro b hb
    rcases List.mem_append.mp hb with hb | hb
    · exact hmem b (List.mem_append.mpr (Or.inl hb))
    · rcases List.mem_cons.mp hb with rfl | hb
      · exact hx
      · exact hmem b (List.mem_append.mpr (Or.inr (List.mem_cons_of_mem _ hb)))
  · rw [stateUkns_append, stateUkns_cons]
    rw [stateUkns_append, stateUkns_cons] at hnodup
    rcases hukn with h | ⟨hnone, u, hsome, hu⟩
    · rw [h]
      exact hnodup
    · rw [stateUkns_append, stateUkns_cons, hnone] at hu
      rw [hnone] at hnodup
      rw [hsome]
      simp only [Option.toList_none, Option.toList_some, List.nil_append,
        List.singleton_append] at *
      rw [List.nodup_middle]
      exact List.nodup_cons.mpr ⟨hu, hnodup⟩

theorem appInvWeak_of_not_verified {x : KYCApp} (h : ¬ x.status = .VERIFIED) :
    AppInvWeak x := fun hv => absurd hv h

theorem appInvAux_of_none {x : KYCApp} (h : x.ukn = none) : AppInvAux x :=
  fun _ => h

theorem uploadStatusStep_shape (a : KYCApp) :
    ((uploadStatusStep a).ukn = a.ukn ∧
      (uploadStatusStep a).verified_at = a.verified_at ∧
      (uploadStatusStep a).expires_at = a.expires_at) ∧
    (((uploadStatusStep a).status = .UPLOADED ∧
        (a.status = .REGISTERED ∨ a.status = .DRAFT)) ∨
      (uploadStatusStep a).status = a.status) := by
  unfold uploadStatusStep
  split
  · exact ⟨⟨rfl, rfl, rfl⟩, Or.inl ⟨rfl, by assumption⟩⟩
  · exact ⟨⟨rfl, rfl, rfl⟩, Or.inr rfl⟩

theorem uploadValidityStep_shape (ok : Bool) (a : KYCApp) :
    ((uploadValidityStep ok a).ukn = a.ukn ∧
      (uploadValidityStep ok a).verified_at = a.verified_at ∧
      (uploadValidityStep ok a).expires_at = a.expires_at) ∧
    ((uploadValidityStep ok a).status = .IN_REVIEW ∨
      (uploadValidityStep ok a).status = a.status) := by
  unfold uploadValidityStep
  split
  · exact ⟨⟨rfl, rfl, rfl⟩, Or.inr rfl⟩
  · exact ⟨⟨rfl, rfl, rfl⟩, Or.inl rfl⟩

theorem uploadTxnStep_shape (t : Option TxnAnalysis) (a : KYCApp) :
    ((uploadTxnStep t a).ukn = a.ukn ∧
      (uploadTxnStep t a).verified_at = a.verified_at ∧
      (uploadTxnStep t a).expires_at = a.expires_at) ∧
    ((uploadTxnStep t a).status = .FLAGGED ∨ (uploadTxnStep t a).status = a.status) := by
  unfold uploadTxnStep
  repeat' split
  · exact ⟨⟨rfl, rfl, rfl⟩, Or.inl rfl⟩
  · exact ⟨⟨rfl, rfl, rfl⟩, Or.inr rfl⟩
  · exact ⟨⟨rfl, rfl, rfl⟩, Or.inr rfl⟩

theorem uploadLivenessStep_shape (env : UploadEnv) (a : KYCApp) :
    ((uploadLivenessStep env a).ukn = a.ukn ∧
      (uploadLivenessStep env a).verified_at = a.verified_at ∧
      (uploadLivenessStep env a).expires_at = a.expires_at) ∧
    ((uploadLivenessStep env a).status = .FLAGGED ∨
      (uploadLivenessStep env a).status = a.status) := by
  unfold uploadLivenessStep
  split
  · exact ⟨⟨rfl, rfl, rfl⟩, Or.inl rfl⟩
  · exact ⟨⟨rfl, rfl, rfl⟩, Or.inr rfl⟩

/-- The document-upload endpoint never touches the unique number or the
verification timestamps, and the statuses it can write are UPLOADED
(only from a pre-upload status), IN_REVIEW and FLAGGED; any other
resulting status is the untouched original. -/
theorem upload_shape (a : KYCApp) (env : UploadEnv) :
    (upload_document a env).ukn = a.ukn ∧
    (upload_document a env).verified_at = a.verified_at ∧
    (upload_document a env).expires_at = a.expires_at ∧
    ((upload_document a env).status = .VERIFIED → a.status = .VERIFIED) ∧
    ((upload_document a env).status = .DRAFT → a.status = .DRAFT) ∧
    ((upload_document a env).status = .REGISTERED → a.status = .REGISTERED) ∧
    ((upload_document a env).status = .PROCESSING → a.status = .PROCESSING) ∧
    ((upload_document a env).status = .UPLOADED →
      (a.status = .UPLOADED ∨ a.status = .DRAFT ∨ a.status = .REGISTERED)) := by
  obtain ⟨⟨hu1, hv1, he1⟩, hs1⟩ := uploadStatusStep_shape (uploadDocAppend env a)
  obtain ⟨⟨hu2, hv2, he2⟩, hs2⟩ :=
    uploadValidityStep_shape (uploadValidOk a env)
      (uploadStatusStep (uploadDocAppend env a))
  obtain ⟨⟨hu3, hv3, he3⟩, hs3⟩ :=
    uploadTxnStep_shape (uploadTxnAnalysis env)
      (uploadValidityStep (uploadValidOk a env)
        (uploadStatusStep (uploadDocAppend env a)))
  obtain ⟨⟨hu4, hv4, he4⟩, hs4⟩ :=
    uploadLivenessStep_shape env
      (uploadTxnStep (uploadTxnAnalysis env)
        (uploadValidityStep (uploadValidOk a env)
          (uploadStatusStep (uploadDocAppend env a))))
  have hstat : (upload_document a env).status = .FLAGGED ∨
      (upload_document a env).status = .IN_REVIEW ∨
      ((upload_document a env).status = .UPLOADED ∧
        (a.status = .REGISTERED ∨ a.status = .DRAFT)) ∨
      (upload_document a env).status = a.status := by
    show (uploadLivenessStep env _).status = _ ∨ _
    rcases hs4 with h4 | h4
    · exact Or.inl h4
    rcases hs3 with h3 | h3
    · exact Or.inl (h4.trans h3)
    rcases hs2 with h2 | h2
    · exact Or.inr (Or.inl (h4.trans (h3.trans h2)))
    rcases hs1 with ⟨h1, hpre⟩ | h1
    · exact Or.inr (Or.inr (Or.inl ⟨h4.trans (h3.trans (h2.trans h1)), hpre⟩))
    · exact Or.inr (Or.inr (Or.inr (h4.trans (h3.trans (h2.trans h1)))))
  refine ⟨hu4.trans (hu3.trans (hu2.trans hu1)),
    hv4.trans (hv3.trans (hv2.trans hv1)),
    he4.trans (he3.trans (he2.trans he1)), ?_, ?_, ?_, ?_, ?_⟩
  · intro h
    rcases hstat with hh | hh | ⟨hh, _⟩ | hh
    · rw [h] at hh
      exact absurd hh (by simp)
    · rw [h] at hh
      exact absurd hh (by simp)
    · rw [h] at hh
      exact absurd hh (by simp)
    · rw [h] at hh
      exact hh.symm
  · intro h
    rcases hstat with hh | hh | ⟨hh, _⟩ | hh
    · rw [h] at hh
      exact absurd hh (by simp)
    · rw [h] at hh
      exact absurd hh (by simp)
    · rw [h] at hh
      exact absurd hh (by simp)
    · rw [h] at hh
      exact hh.symm
  · intro h
    rcases hstat with hh | hh | ⟨hh, _⟩ | hh
    · rw [h] at hh
      exact absurd hh (by simp)
    · rw [h] at hh
      exact absurd hh (by simp)
    · rw [h] at hh
      exact absurd hh (by simp)
    · rw [h] at hh
      exact hh.symm
  · intro h
    rcases hstat with hh | hh | ⟨hh, _⟩ | hh
    · rw [h] at hh
      exact absurd hh (by simp)
    · rw [h] at hh
      exact absurd hh (by simp)
    · rw [h] at hh
      exact absurd hh (by simp)
    · rw [h] at hh
      exact hh.symm
  · intro h
    rcases hstat with hh | hh | ⟨hh, hpre⟩ | hh
    · rw [h] at hh
      exact absurd hh (by simp)
    · rw [h] at hh
      exact absurd hh (by simp)
    · rcases hpre with hp | hp
      · exact Or.inr (Or.inr hp)
      · exact Or.inr (Or.inl hp)
    · rw [h] at hh
      exact Or.inl hh.symm

/-- Every decision-engine request and every document upload preserves
the auxiliary system invariant. -/
theorem fullStep_preserves {s t : SysState} (hstep : FullStep s t)
    (hinv : SysInvAux s) : SysInvAux t := by
  cases hstep with
  | upload pre post a env =>
    have ha := hinv.1 a (List.mem_append.mpr (Or.inr (List.mem_cons_self a post)))
    obtain ⟨hukn, hver, hexp, hv, hd, hr, hp, hu⟩ := upload_shape a env
    apply sysInvAux_replace pre post a _ hinv ?_ (Or.inl hukn)
    constructor
    · intro hst
      rw [hukn, hver, hexp]
      exact ha.1 (hv hst)
    · intro hst
      rw [hukn]
      apply ha.2
      rcases hst with h | h | h | h
      · exact Or.inl (hd h)
      · exact Or.inr (Or.inl (hr h))
      · rcases hu h with h' | h' | h'
        · exact Or.inr (Or.inr (Or.inl h'))
        · exact Or.inl h'
        · exact Or.inr (Or.inl h')
      · exact Or.inr (Or.inr (Or.inr (hp h)))
  | dsm hd =>
    cases hd with
    | create s uid hnew =>
      obtain ⟨hmem, hnodup⟩ := hinv
      constructor
      · intro b hb
        rcases List.mem_append.mp hb with hb | hb
        · exact hmem b hb
        · rcases List.mem_singleton.mp hb with rfl
          exact ⟨fun h => by exact absurd h (by simp [newApp]), fun _ => rfl⟩
      · rw [stateUkns_append]
        have : stateUkns [newApp uid] = [] := rfl
        rw [this, List.append_nil]
        exact hnodup
    | setDetails pre post a ud =>
      have ha := hinv.1 a (List.mem_append.mpr (Or.inr (List.mem_cons_self a post)))
      exact sysInvAux_replace pre post a _ hinv ⟨ha.1, ha.2⟩ (Or.inl rfl)
    | processCommit pre post a env hst hdocs hval =>
      have ha := hinv.1 a (List.mem_append.mpr (Or.inr (List.mem_cons_self a post)))
      have haukn : a.ukn = none := by
        apply ha.2
        rcases hst with h | h | h
        · exact Or.inr (Or.inr (Or.inl h))
        · exact Or.inl h
        · exact Or.inr (Or.inl h)
      apply sysInvAux_replace pre post a _ hinv ?_ ?_
      · exact ⟨appInvWeak_of_not_verified (fun h => nomatch h),
          appInvAux_of_none haukn⟩
      · exact Or.inl rfl
    | processRun pre post a env hfresh =>
      have ha := hinv.1 a (List.mem_append.mpr (Or.inr (List.mem_cons_self a post)))
      by_cases h1 : ¬ (a.status = .UPLOADED ∨ a.status = .DRAFT ∨ a.status = .REGISTERED)
      · have hpost : (process a env).post = a := by
          simp [process, h1, ProcessOutcome.post]
        rw [hpost]
        exact hinv
      · have h1' := not_not.mp h1
        have haukn : a.ukn = none := by
          apply ha.2
          rcases h1' with h | h | h
          · exact Or.inr (Or.inr (Or.inl h))
          · exact Or.inl h
          · exact Or.inr (Or.inl h)
        by_cases h2 : a.documents = []
        · have hpost : (process a env).post = a := by
            simp [process, h1, h2, ProcessOutcome.post]
          rw [hpost]
          exact hinv
        · cases hvo : validationOutcome a env with
          | some reasons =>
            have hpost : (process a env).post =
                { a with status := .REJECTED
                         reviewer_comment := some (.detailsMismatch reasons) } := by
              simp [process, h1, h2, hvo, ProcessOutcome.post]
            rw [hpost]
            apply sysInvAux_replace pre post a _ hinv ?_ ?_
            · exact ⟨appInvWeak_of_not_verified (fun h => nomatch h),
                appInvAux_of_none haukn⟩
            · exact Or.inl rfl
          | none =>
            cases hdup : effectiveDuplicate a env with
            | some u =>
              have hpost : (process a env).post.ukn = a.ukn ∧
                  (process a env).post.status = .IN_REVIEW := by
                constructor <;>
                  simp [process, h1, h2, hvo, hdup, ProcessOutcome.post]
              apply sysInvAux_replace pre post a _ hinv ?_ (Or.inl (hpost.1.trans rfl))
              refine ⟨appInvWeak_of_not_verified (fun h => ?_), ?_⟩
              · rw [hpost.2] at h
                exact nomatch h
              · intro _
                rw [hpost.1]
                exact haukn
            | none =>
              by_cases hr : env.risk_score < 3 / 10
              · have hpost : (process a env).post.ukn = some env.fresh_ukn ∧
                    (process a env).post.status = .VERIFIED ∧
                    (process a env).post.verified_at = some env.now ∧
                    (process a env).post.expires_at = some (env.now + 365) := by
                  refine ⟨?_, ?_, ?_, ?_⟩ <;>
                    simp [process, h1, h2, hvo, hdup, hr, ProcessOutcome.post]
                apply sysInvAux_replace pre post a _ hinv ?_
                  (Or.inr ⟨haukn, env.fresh_ukn, hpost.1, hfresh⟩)
                constructor
                · intro _
                  rw [hpost.1, hpost.2.2.1, hpost.2.2.2]
                  exact ⟨by simp, env.now, rfl, rfl⟩
                · intro hst
                  rw [hpost.2.1] at hst
                  rcases hst with h | h | h | h <;> exact absurd h (by simp)
              · have hpost : (process a env).post.ukn = a.ukn ∧
                    (process a env).post.status = .IN_REVIEW := by
                  constructor <;>
                    simp [process, h1, h2, hvo, hdup, hr, ProcessOutcome.post]
                apply sysInvAux_replace pre post a _ hinv ?_ (Or.inl hpost.1)
                refine ⟨appInvWeak_of_not_verified (fun h => ?_), ?_⟩
                · rw [hpost.2] at h
                  exact nomatch h
                · intro _
                  rw [hpost.1]
                  exact haukn
    | approve pre post a comment fresh now hfresh =>
      have ha := hinv.1 a (List.mem_append.mpr (Or.inr (List.mem_cons_self a post)))
      by_cases hg : ¬ (a.status = .IN_REVIEW ∨ a.status = .PROCESSING ∨
          a.status = .REQUEST_INFO)
      · have hpost : exceptPost a (approve_application a comment fresh now) = a := by
          simp [approve_application, hg, exceptPost]
        rw [hpost]
        exact hinv
      · cases haukn : a.ukn with
        | none =>
          have hpost : exceptPost a (approve_application a comment fresh now) =
              { a with ukn := some fresh, status := .VERIFIED,
                       reviewer_comment := comment.map .reviewer,
                       verified_at := some now, expires_at := some (now + 365) } := by
            simp [approve_application, hg, exceptPost, haukn]
          rw [hpost]
          apply sysInvAux_replace pre post a _ hinv ?_
            (Or.inr ⟨haukn, fresh, rfl, hfresh⟩)
          constructor
          · intro _
            exact ⟨by simp, now, rfl, rfl⟩
          · intro hst
            rcases hst with h | h | h | h <;> exact absurd h (by simp)
        | some u =>
          have hpost : exceptPost a (approve_application a comment fresh now) =
              { a with ukn := some u, status := .VERIFIED,
                       reviewer_comment := comment.map .reviewer,
                       verified_at := some now, expires_at := some (now + 365) } := by
            simp [approve_application, hg, exceptPost, haukn]
          rw [hpost]
          apply sysInvAux_replace pre post a _ hinv ?_ (Or.inl haukn.symm)
          constructor
          · intro _
            exact ⟨by simp, now, rfl, rfl⟩
          · intro hst
            rcases hst with h | h | h | h <;> exact absurd h (by simp)
    | reject pre post a comment =>
      have ha := hinv.1 a (List.mem_append.mpr (Or.inr (List.mem_cons_self a post)))
      by_cases hg : ¬ (a.status = .IN_REVIEW ∨ a.status = .PROCESSING ∨
          a.status = .REQUEST_INFO)
      · have hpost : exceptPost a (reject_application a comment) = a := by
          simp [reject_application, hg, exceptPost]
        rw [hpost]
        exact hinv
      · have hpost : exceptPost a (reject_application a comment) =
            { a with status := .REJECTED,
                     reviewer_comment :=
                       some (if comment = "" then .reviewerDefault
                             else .reviewer comment) } := by
          simp [reject_application, hg, exceptPost]
        rw [hpost]
        apply sysInvAux_replace pre post a _ hinv ?_ ?_
        · refine ⟨appInvWeak_of_not_verified (fun h => nomatch h), ?_⟩
          intro hst
          rcases hst with h | h | h | h <;> exact absurd h (by simp)
        · exact Or.inl rfl

/-- Every reachable state satisfies the auxiliary system invariant. -/
theorem fullReachable_sysInvAux (s : SysState) (h : FullReachable s) :
    SysInvAux s := by
  induction h with
  | refl => exact ⟨fun a ha => absurd ha (List.not_mem_nil a), List.nodup_nil⟩
  | tail _ hstep ih => exact fullStep_preserves hstep ih

/-- C2 (amended): in every case state reachable through the
case-mutating endpoints, every VERIFIED case holds a non-null unique
verification number with expires-at exactly 365 days after verified-at,
and no two cases ever hold the same unique number.  (The converse — a
non-null number only on VERIFIED cases — is refuted by the
counterexample: a document upload on an already-verified case moves it
back to IN_REVIEW or FLAGGED while it keeps its number.) -/
theorem kyc_invariant_weak (s : SysState) (h : FullReachable s) :
    SysInvWeak s := by
  obtain ⟨hmem, hnodup⟩ := fullReachable_sysInvAux s h
  exact ⟨fun a ha => (hmem a ha).1, hnodup⟩

/-- Witness for the amended C2: a freshly created case store. -/
theorem kyc_invariant_weak_witness : SysInvWeak [newApp 0] :=
  kyc_invariant_weak [newApp 0]
    (Relation.ReflTransGen.single (FullStep.dsm (Step.create [] 0 (by simp))))

def c2Ud : UserDetails :=
  { name := "John Smith", date_of_birth := "1990-01-15", gender := "", address := "" }

def c2EdOk : ExtractedData :=
  { name := "JOHN SMITH", dob := "15/01/1990", gender := "", address := "" }

def c2EdBad : ExtractedData :=
  { name := "XXXXX", dob := "", gender := "", address := "" }

def c2UpEnv1 : UploadEnv :=
  { doc_type := "PASSPORT", extracted := c2EdOk, liveness_is_live := none, raw_text := "" }

def c2UpEnv2 : UploadEnv :=
  { doc_type := "PASSPORT", extracted := c2EdBad, liveness_is_live := none, raw_text := "" }

def c2Env : ProcessEnv :=
  { ocr_extract := ⟨"", "", "", ""⟩, face_match_score := none
    duplicate_ukn := none, risk_score := 1 / 10
    fresh_ukn := "KYC-0000-1111-2222", now := 50 }

def c2App2 : KYCApp := { newApp 0 with user_details := some c2Ud }

def c2App3 : KYCApp := upload_document c2App2 c2UpEnv1

def c2App4 : KYCApp := (process c2App3 c2Env).post

def c2App5 : KYCApp := upload_document c2App4 c2UpEnv2

def c2BadState : SysState := [c2App5]

/-- C2 counterexample: a concrete reachable run — create, enter details,
upload a matching document, auto-approve (VERIFIED with a unique
number), then upload a mismatching document — ends in a state whose case
is IN_REVIEW while still holding its unique verification number, so the
claimed unique-number-iff-VERIFIED invariant fails on a reachable state. -/
theorem kyc_invariant_counterexample :
    FullReachable c2BadState ∧ ¬ SysInv c2BadState := by
  constructor
  · have h1 : FullStep [] [newApp 0] := FullStep.dsm (Step.create [] 0 (by simp))
    have h2 : FullStep [newApp 0] [c2App2] :=
      FullStep.dsm (Step.setDetails [] [] (newApp 0) c2Ud)
    have h3 : FullStep [c2App2] [c2App3] := FullStep.upload [] [] c2App2 c2UpEnv1
    have h4 : FullStep [c2App3] [c2App4] :=
      FullStep.dsm (Step.processRun [] [] c2App3 c2Env (by with_unfolding_all decide))
    have h5 : FullStep [c2App4] [c2App5] := FullStep.upload [] [] c2App4 c2UpEnv2
    exact Relation.ReflTransGen.tail (Relation.ReflTransGen.tail
      (Relation.ReflTransGen.tail (Relation.ReflTransGen.tail
        (Relation.ReflTransGen.single h1) h2) h3) h4) h5
  · intro hinv
    have h := hinv.1 c2App5 (List.mem_singleton.mpr rfl)
    have hukn : c2App5.ukn = some "KYC-0000-1111-2222" := by
      with_unfolding_all decide
    have hst : c2App5.status = Status.IN_REVIEW := by
      with_unfolding_all decide
    have hv := h.1.mp (by rw [hukn]; simp)
    rw [hst] at hv
    exact absurd hv (by simp)

end IdentiQ
